import Mathlib

set_option maxHeartbeats 1000000

/- Verification development for bot.py (telegram-sheets-bot).

   Python floats are modelled as exact rationals, Python strings as Lean
   strings or lists of characters.  Fallible code paths are modelled with
   Option and Except.  Definitions mirror the source functions and keep
   their names where Lean allows it. -/

/- Python str.strip on a list of characters. -/
def trimL (l : List Char) : List Char :=
  ((l.dropWhile Char.isWhitespace).reverse.dropWhile Char.isWhitespace).reverse

/- Boolean list-prefix test, used by replaceList. -/
def isPrefixL : List Char → List Char → Bool
  | [], _ => true
  | _ :: _, [] => false
  | a :: as2, b :: bs => a == b && isPrefixL as2 bs

/- Python str.replace: every non-overlapping occurrence of pat, left to
   right, becomes rep.  The source only replaces non-empty patterns.  The
   recursion is driven by a fuel argument so that the kernel can evaluate
   it; one character is consumed per step, so fuel = length suffices. -/
def replaceFuel (pat rep : List Char) : ℕ → List Char → List Char
  | _, [] => []
  | 0, l => l
  | fuel + 1, c :: rest =>
    if isPrefixL pat (c :: rest) ∧ pat ≠ [] then
      rep ++ replaceFuel pat rep fuel ((c :: rest).drop pat.length)
    else
      c :: replaceFuel pat rep fuel rest

def replaceList (pat rep : List Char) (l : List Char) : List Char :=
  replaceFuel pat rep l.length l

/- Python str.split(sep) for a one-character separator. -/
def splitOnChar (sep : Char) : List Char → List (List Char)
  | [] => [[]]
  | c :: rest =>
    if c = sep then [] :: splitOnChar sep rest
    else
      match splitOnChar sep rest with
      | [] => [[c]]
      | g :: gs => (c :: g) :: gs

/- Python str.splitlines, modelled for line-feed separators (the texts the
   claims range over contain no other line-break characters). -/
def pySplitlines (l : List Char) : List (List Char) :=
  let gs := splitOnChar '\n' l
  if gs.getLast? = some [] then gs.dropLast else gs

/- Python str.split(sep, 1): the part before the first sep and the part
   after it (the source always checks membership of sep first). -/
def splitFirst (sep : Char) : List Char → List Char × List Char
  | [] => ([], [])
  | c :: rest =>
    if c = sep then ([], rest)
    else
      let p := splitFirst sep rest
      (c :: p.1, p.2)

/- The re.search in _to_float for a digit block, a comma and a digit block:
   equivalent to a digit immediately followed by a comma and a digit. -/
def hasCommaDecimal : List Char → Bool
  | a :: b :: c :: rest => (a.isDigit && b == ',' && c.isDigit) || hasCommaDecimal (b :: c :: rest)
  | _ => false

/- Numeric value of a digit string, as float() reads consecutive digits. -/
def digitsVal (l : List Char) : ℕ :=
  l.foldl (fun a c => 10 * a + (c.toNat - 48)) 0

/- Value of a matched numeric token: sign, integer digits, fraction digits. -/
def ratOfParts (neg : Bool) (ip fp : List Char) : ℚ :=
  let v : ℚ := (digitsVal ip : ℚ) + (digitsVal fp : ℚ) / (10 : ℚ) ^ fp.length
  if neg then -v else v

/- The optional fraction of the numeric pattern: a point then digits; when
   no digit follows the point the optional group fails, giving no digits. -/
def fracPart : List Char → List Char
  | '.' :: r => r.takeWhile Char.isDigit
  | _ => []

/- Does the list start with a digit?  (Whether a minus sign begins a match.) -/
def firstIsDigit : List Char → Bool
  | d :: _ => d.isDigit
  | [] => false

/- Leftmost match of the numeric pattern of _to_float: an optional minus
   sign, one or more digits and an optional fraction; none when no match.
   A minus sign not followed by a digit starts no match and the scan moves
   on, as the regular-expression search does. -/
def findNum : List Char → Option (Bool × List Char × List Char)
  | [] => none
  | c :: rest =>
    if c.isDigit then
      some (false, c :: rest.takeWhile Char.isDigit, fracPart (rest.dropWhile Char.isDigit))
    else if c = '-' ∧ firstIsDigit rest then
      some (true, rest.takeWhile Char.isDigit, fracPart (rest.dropWhile Char.isDigit))
    else findNum rest

/- str.replace of a comma by a point is a characterwise map. -/
def commaDot (c : Char) : Char := if c = ',' then '.' else c

/- The currency-marker stripping stage of _to_float: strip, remove the
   markers, strip again. -/
def stripStage (l : List Char) : List Char :=
  trimL (replaceList ("USD".toList) [] (replaceList ("USDT".toList) []
    (replaceList ("R$".toList) [] (trimL l))))

/- float(m.group(0)) of the first numeric match, 0.0 when there is none. -/
def numOf (l : List Char) : ℚ :=
  match findNum l with
  | some (b, ip, fp) => ratOfParts b ip fp
  | none => 0

/- The token-extraction part of _to_float: strip currency markers, pick the
   decimal-separator convention, find the first numeric token. -/
def to_floatParts (l : List Char) : Option (Bool × List Char × List Char) :=
  let r := stripStage l
  if hasCommaDecimal r then findNum ((r.filter (fun c => c != '.')).map commaDot)
  else findNum (r.map commaDot)

/- bot.py _to_float, after the None test: the value of the first numeric
   token in the normalized string, 0.0 when there is none. -/
def to_floatL (l : List Char) : ℚ :=
  match to_floatParts l with
  | some (b, ip, fp) => ratOfParts b ip fp
  | none => 0

/- bot.py _to_float. -/
def _to_float : Option String → ℚ
  | none => 0
  | some s => to_floatL s.toList

/- _to_float applied to a string cell (the aggregators always pass one). -/
def to_floatS (s : String) : ℚ := to_floatL s.toList

/- bot.py calc_profit. -/
def calc_profit (initial deposit withdraw final : ℚ) : ℚ × ℚ :=
  let profit := final + withdraw - deposit - initial
  (profit, max 0 (profit * (5 / 100)))

/- handle_text, donation in the second currency: donation * usdbrl. -/
def donation_brl (donation usdbrl : ℚ) : ℚ := donation * usdbrl

example : to_floatL ("1.234,56".toList) = 123456 / 100 := by
  have h : to_floatParts ['1', '.', '2', '3', '4', ',', '5', '6'] =
      some (false, ['1', '2', '3', '4'], ['5', '6']) := by decide
  have h1 : digitsVal ['1', '2', '3', '4'] = 1234 := by decide
  have h2 : digitsVal ['5', '6'] = 56 := by decide
  simp [to_floatL, h, ratOfParts, h1, h2]
  norm_num
example : to_floatL ("abc".toList) = 0 := by
  have h : to_floatParts ['a', 'b', 'c'] = none := by decide
  simp [to_floatL, h]
example : calc_profit 500 0 0 600 = (100, 5) := by norm_num [calc_profit]

/- The canonical record parse_message produces (the TransactionRecord). -/
structure Registro where
  cidade : String
  nome : String
  id_conta : String
  mes : String
  inicial : ℚ
  deposito : ℚ
  saque : ℚ
  final : ℚ
  obs : String
deriving DecidableEq

/- Python str.lower, characterwise. -/
def lowerL (l : List Char) : List Char := l.map Char.toLower

/- The key-to-value store parse_message builds.  Insertion overwrites, so
   the lookup returns the value of the most recent insertion. -/
def dput (d : List (List Char × List Char)) (k v : List Char) :
    List (List Char × List Char) :=
  (k, v) :: d

def dget (d : List (List Char × List Char)) (k : List Char) : Option (List Char) :=
  (d.find? (fun p => p.1 == k)).map (fun p => p.2)

/- One segment of the inline branch: when it contains an equals sign, store
   the lower-cased trimmed key with the trimmed value. -/
def inlineStep (d : List (List Char × List Char)) (p : List Char) :
    List (List Char × List Char) :=
  if '=' ∈ p then
    dput d (lowerL (trimL (splitFirst '=' p).1)) (trimL (splitFirst '=' p).2)
  else d

/- The inline branch of parse_message: split on semicolons, keep non-blank
   segments, split each at its first equals sign, then read the fields in
   the alias order of the source. -/
def parseInline (t : List Char) : Registro :=
  let parts := ((splitOnChar ';' t).map trimL).filter (fun p => p != [])
  let data := parts.foldl inlineStep []
  { cidade := String.mk ((dget data ("cidade".toList)).getD [])
    nome := String.mk ((dget data ("nome".toList)).getD [])
    id_conta := String.mk
      ((dget data ("id".toList) <|> dget data ("id da conta".toList)).getD [])
    mes := String.mk
      ((dget data ("mes".toList) <|> dget data ("mês".toList) <|>
        dget data ("mês transação".toList) <|> dget data ("mes transação".toList)).getD [])
    inicial := to_floatL
      ((dget data ("inicial".toList) <|> dget data ("transação inicial".toList) <|>
        dget data ("transacao inicial".toList)).getD ['0'])
    deposito := to_floatL
      ((dget data ("deposito".toList) <|> dget data ("depósito".toList)).getD ['0'])
    saque := to_floatL ((dget data ("saque".toList)).getD ['0'])
    final := to_floatL
      ((dget data ("final".toList) <|> dget data ("saldo final".toList)).getD ['0'])
    obs := String.mk
      ((dget data ("obs".toList) <|> dget data ("observacao".toList) <|>
        dget data ("observação".toList)).getD []) }

/- One line of the line branch: when it contains a colon, store the
   lower-cased trimmed key with the trimmed value. -/
def lineStep (d : List (List Char × List Char)) (line : List Char) :
    List (List Char × List Char) :=
  if ':' ∈ line then
    dput d (lowerL (trimL (splitFirst ':' line).1)) (trimL (splitFirst ':' line).2)
  else d

/- The line branch of parse_message: one field per line, split at the first
   colon; get_any tries the alias keys in order. -/
def parseLines (t : List Char) : Registro :=
  let data := (pySplitlines t).foldl lineStep []
  let ga := fun (ks : List (List Char)) (dflt : List Char) =>
    (ks.findSome? (fun k => dget data k)).getD dflt
  { cidade := String.mk (ga ["cidade".toList] [])
    nome := String.mk (ga ["nome".toList] [])
    id_conta := String.mk (ga ["id da conta".toList, "id".toList] [])
    mes := String.mk (ga ["mês transação".toList, "mes transação".toList,
      "mês".toList, "mes".toList] [])
    inicial := to_floatL (ga ["transação inicial".toList, "transacao inicial".toList,
      "inicial".toList] ['0'])
    deposito := to_floatL (ga ["depósito".toList, "deposito".toList] ['0'])
    saque := to_floatL (ga ["saque".toList] ['0'])
    final := to_floatL (ga ["saldo final".toList, "final".toList] ['0'])
    obs := String.mk (ga ["observação".toList, "observacao".toList, "obs".toList] []) }

/- bot.py parse_message: strip the text, choose the branch by the rule of
   line 115 of the source, parse. -/
def parse_message (text : String) : Registro :=
  let t := trimL text.toList
  if '=' ∈ t ∧ (';' ∈ t ∨ '\n' ∉ t) then parseInline t else parseLines t

/- Fixed projection-model constants of bot.py. -/
def DAILY_RATE : ℚ := 128 / 10000

def DAYS_PER_MONTH : ℕ := 22

/- bot.py _fator_mensal. -/
def _fator_mensal : ℚ := (1 + DAILY_RATE) ^ DAYS_PER_MONTH

/- bot.py projecao_1: each month of range(1, meses + 1) multiplies the
   balance by the monthly factor and records (month, balance). -/
def projecao_1 (inicial : ℚ) (meses : ℕ) : ℚ × List (ℕ × ℚ) :=
  let f := _fator_mensal
  (List.range' 1 meses).foldl
    (fun st m => (st.1 * f, st.2 ++ [(m, st.1 * f)])) (inicial, [])

/- bot.py projecao_2: grow first, then add the contribution while the month
   index is at most meses_aporte. -/
def projecao_2 (inicial : ℚ) (meses_total : ℕ) (aporte : ℚ) (meses_aporte : ℕ) :
    ℚ × List (ℕ × ℚ) :=
  let f := _fator_mensal
  (List.range' 1 meses_total).foldl
    (fun st m =>
      let s := st.1 * f
      let s2 := if m ≤ meses_aporte then s + aporte else s
      (s2, st.2 ++ [(m, s2)]))
    (inicial, [])

/- bot.py projecao_3: grow, withdraw half of the month's profit, record
   (month, balance, withdrawn) and accumulate the total withdrawn. -/
def projecao_3 (inicial : ℚ) (meses : ℕ) : ℚ × ℚ × List (ℕ × ℚ × ℚ) :=
  let f := _fator_mensal
  (List.range' 1 meses).foldl
    (fun st m =>
      let inicio := st.1
      let fim := inicio * f
      let lucro := fim - inicio
      let sacado := max 0 (lucro * (1 / 2))
      (fim - sacado, st.2.1 + sacado, st.2.2 ++ [(m, fim - sacado, sacado)]))
    (inicial, 0, [])

/- Round half to even, the rounding used when a float is formatted with two
   decimals; idealized to exact rationals. -/
def rhe (q : ℚ) : ℤ :=
  let f := ⌊q⌋
  let r := q - f
  if r < 1 / 2 then f
  else if 1 / 2 < r then f + 1
  else if f % 2 = 0 then f else f + 1

/- Digit characters of a natural number. -/
def natDigits (n : ℕ) : List Char := Nat.toDigits 10 n

/- Insert a grouping character every three digits from the right (the comma
   grouping of the format used by _format_money). -/
def group3Rev : List Char → List Char
  | a :: b :: c :: d :: rest => a :: b :: c :: ',' :: group3Rev (d :: rest)
  | l => l

def group3 (l : List Char) : List Char := (group3Rev l.reverse).reverse

/- bot.py _format_money: two decimals with comma grouping, then the visual
   swap of the separators to the Brazilian convention. -/
def _format_money (x : ℚ) : String :=
  let c := rhe (x * 100)
  let a := c.natAbs
  let ip := a / 100
  let fp := a % 100
  let us := (if c < 0 then ['-'] else []) ++ group3 (natDigits ip) ++
    '.' :: (if fp < 10 then '0' :: natDigits fp else natDigits fp)
  String.mk (us.map (fun ch => if ch = ',' then '.' else if ch = '.' then ',' else ch))

/- bot.py _linhas_mensais_padrão, as the list of lines that get joined: at
   most the first 12 months, then one marker line when meses_total > 12. -/
def linhasMensaisPadraoList (valores : List (ℕ × ℚ)) (meses_total : ℕ) : List String :=
  ((valores.take 12).map (fun p =>
    "M" ++ toString p.1 ++ ": " ++ _format_money p.2 ++ " USDT")) ++
  (if 12 < meses_total then ["... (+" ++ toString (meses_total - 12) ++ " meses)"] else [])

def _linhas_mensais_padrao (valores : List (ℕ × ℚ)) (meses_total : ℕ) : String :=
  String.intercalate "\n" (linhasMensaisPadraoList valores meses_total)

/- bot.py _linhas_mensais_p3, likewise. -/
def linhasMensaisP3List (valores : List (ℕ × ℚ × ℚ)) (meses_total : ℕ) : List String :=
  ((valores.take 12).map (fun p =>
    "M" ++ toString p.1 ++ ": saldo " ++ _format_money p.2.1 ++ " | sacado " ++
      _format_money p.2.2)) ++
  (if 12 < meses_total then ["... (+" ++ toString (meses_total - 12) ++ " meses)"] else [])

def _linhas_mensais_p3 (valores : List (ℕ × ℚ × ℚ)) (meses_total : ℕ) : String :=
  String.intercalate "\n" (linhasMensaisP3List valores meses_total)

/- re.findall of the token pattern of _num_list: one or more digits, then
   an optional comma-or-point fraction; non-overlapping, left to right.
   Fuel-driven recursion (one character is consumed per step). -/
def findAllFuel : ℕ → List Char → List (List Char)
  | _, [] => []
  | 0, _ => []
  | fuel + 1, c :: rest =>
    if c.isDigit then
      match rest.dropWhile Char.isDigit with
      | [] => [c :: rest.takeWhile Char.isDigit]
      | s :: r2 =>
        if (s = '.' ∨ s = ',') ∧ r2.takeWhile Char.isDigit ≠ [] then
          (c :: rest.takeWhile Char.isDigit ++ s :: r2.takeWhile Char.isDigit) ::
            findAllFuel fuel (r2.dropWhile Char.isDigit)
        else
          (c :: rest.takeWhile Char.isDigit) :: findAllFuel fuel (s :: r2)
    else findAllFuel fuel rest

def findAllNums (l : List Char) : List (List Char) := findAllFuel l.length l

/- float(x) on a token matched by the pattern above, after the comma has
   been replaced by a point: integer digits and an optional fraction. -/
def pyFloatTok (t : List Char) : ℚ :=
  match t.dropWhile Char.isDigit with
  | '.' :: r => ratOfParts false (t.takeWhile Char.isDigit) (r.takeWhile Char.isDigit)
  | _ => ratOfParts false (t.takeWhile Char.isDigit) []

/- bot.py _num_list. -/
def _num_list (args : List String) : List ℚ :=
  let s := lowerL ((String.intercalate " " args).toList)
  (findAllNums s).map (fun x => pyFloatTok (x.map commaDot))

/- Python int() on a float: truncation toward zero. -/
def pyInt (q : ℚ) : ℤ := if 0 ≤ q then ⌊q⌋ else -⌊-q⌋

/- The numeric-argument extraction of the commands p1, p2, p3; none models
   the usage-error reply for too few numbers. -/
def p1_args (args : List String) : Option (ℚ × ℤ) :=
  match _num_list args with
  | a :: b :: _ => some (a, pyInt b)
  | _ => none

def p2_args (args : List String) : Option (ℚ × ℤ × ℚ × ℤ) :=
  match _num_list args with
  | a :: b :: c :: d :: _ => some (a, pyInt b, c, pyInt d)
  | _ => none

def p3_args (args : List String) : Option (ℚ × ℤ) :=
  match _num_list args with
  | a :: b :: _ => some (a, pyInt b)
  | _ => none

/- Python str.strip on a String, via the character-list trim (the built-in
   String.trim is implemented by well-founded recursion and does not
   evaluate inside the kernel). -/
def pyStrip (s : String) : String := String.mk (trimL s.toList)

/- The header-name-to-column map of the aggregation commands; on duplicate
   trimmed header names the last one wins, as in a Python dict. -/
def hmGet (header : List String) (name : String) : Option ℕ :=
  ((List.range header.length).filter
    (fun i => pyStrip (header.getD i "") == name)).getLast?

inductive AggErr where
  | missingColumn : AggErr
  | indexError : AggErr
deriving DecidableEq

/- Reading one monetary cell: a column absent from the header reads as the
   string "0" (the source's conditional); a present column indexes the row,
   which is a Python IndexError when the row is too short. -/
def moneyCell (idx : Option ℕ) (r : List String) : Except AggErr String :=
  match idx with
  | none => Except.ok "0"
  | some i =>
    match r.get? i with
    | some v => Except.ok v
    | none => Except.error AggErr.indexError

/- One loop iteration of resumo's aggregation. -/
def resumoStep (hG h5u h5b : Option ℕ) (idxMes : ℕ) (mes : String)
    (st : Except AggErr (ℕ × ℚ × ℚ × ℚ)) (r : List String) :
    Except AggErr (ℕ × ℚ × ℚ × ℚ) :=
  match st with
  | Except.error e => Except.error e
  | Except.ok (c, g, u, b) =>
    if r.length ≤ idxMes then Except.ok (c, g, u, b)
    else if pyStrip (r.getD idxMes "") ≠ mes then Except.ok (c, g, u, b)
    else
      match moneyCell hG r, moneyCell h5u r, moneyCell h5b r with
      | Except.ok vg, Except.ok vu, Except.ok vb =>
          Except.ok (c + 1, g + to_floatS vg, u + to_floatS vu, b + to_floatS vb)
      | Except.error e, _, _ => Except.error e
      | _, Except.error e, _ => Except.error e
      | _, _, Except.error e => Except.error e

/- bot.py resumo: the aggregation core, after the rows are fetched. -/
def resumo_core (header : List String) (rows : List (List String)) (mes : String) :
    Except AggErr (ℕ × ℚ × ℚ × ℚ) :=
  match hmGet header "Mês transação" with
  | none => Except.error AggErr.missingColumn
  | some idxMes =>
    rows.foldl
      (resumoStep (hmGet header "Ganhos período (USDT)")
        (hmGet header "Doação 5% (USDT)") (hmGet header "Doação 5% (BRL)") idxMes mes)
      (Except.ok (0, 0, 0, 0))

/- One loop iteration of meus_resumo's aggregation. -/
def meusResumoStep (hG h5u h5b : Option ℕ) (idxUid idxMes : ℕ) (uid mes : String)
    (st : Except AggErr (ℕ × ℚ × ℚ × ℚ)) (r : List String) :
    Except AggErr (ℕ × ℚ × ℚ × ℚ) :=
  match st with
  | Except.error e => Except.error e
  | Except.ok (c, g, u, b) =>
    if r.length ≤ max idxUid idxMes then Except.ok (c, g, u, b)
    else if pyStrip (r.getD idxUid "") ≠ uid then Except.ok (c, g, u, b)
    else if pyStrip (r.getD idxMes "") ≠ mes then Except.ok (c, g, u, b)
    else
      match moneyCell hG r, moneyCell h5u r, moneyCell h5b r with
      | Except.ok vg, Except.ok vu, Except.ok vb =>
          Except.ok (c + 1, g + to_floatS vg, u + to_floatS vu, b + to_floatS vb)
      | Except.error e, _, _ => Except.error e
      | _, Except.error e, _ => Except.error e
      | _, _, Except.error e => Except.error e

/- bot.py meus_resumo: the aggregation core, after the rows are fetched;
   both filter columns must exist. -/
def meus_resumo_core (header : List String) (rows : List (List String))
    (uid mes : String) : Except AggErr (ℕ × ℚ × ℚ × ℚ) :=
  match hmGet header "Telegram ID", hmGet header "Mês transação" with
  | some idxUid, some idxMes =>
    rows.foldl
      (meusResumoStep (hmGet header "Ganhos período (USDT)")
        (hmGet header "Doação 5% (USDT)") (hmGet header "Doação 5% (BRL)")
        idxUid idxMes uid mes)
      (Except.ok (0, 0, 0, 0))
  | _, _ => Except.error AggErr.missingColumn

/- ------------------------------------------------------------------ -/
/- Basic lemmas about the string helpers.                              -/
/- ------------------------------------------------------------------ -/

lemma mem_trimL {l : List Char} {c : Char} (hc : c ∈ trimL l) : c ∈ l := by
  unfold trimL at hc
  rw [List.mem_reverse] at hc
  have h1 := (List.dropWhile_sublist (l := (l.dropWhile Char.isWhitespace).reverse)
    Char.isWhitespace).subset hc
  rw [List.mem_reverse] at h1
  exact (List.dropWhile_sublist Char.isWhitespace).subset h1

lemma mem_replaceFuel_empty (pat : List Char) :
    ∀ fuel l c, c ∈ replaceFuel pat [] fuel l → c ∈ l := by
  intro fuel
  induction fuel with
  | zero =>
    intro l c hc
    cases l with
    | nil => simp [replaceFuel] at hc
    | cons a rest => simpa [replaceFuel] using hc
  | succ n ih =>
    intro l c hc
    cases l with
    | nil => simp [replaceFuel] at hc
    | cons a rest =>
      by_cases hp : isPrefixL pat (a :: rest) ∧ pat ≠ []
      · rw [replaceFuel, if_pos hp] at hc
        simp only [List.nil_append] at hc
        exact List.drop_subset _ _ (ih _ _ hc)
      · rw [replaceFuel, if_neg hp] at hc
        rcases List.mem_cons.mp hc with h | h
        · simp [h]
        · exact List.mem_cons_of_mem _ (ih _ _ h)

lemma mem_replaceList_empty {pat l : List Char} {c : Char}
    (hc : c ∈ replaceList pat [] l) : c ∈ l :=
  mem_replaceFuel_empty pat l.length l c hc

lemma mem_stripStage {l : List Char} {c : Char} (hc : c ∈ stripStage l) : c ∈ l := by
  unfold stripStage at hc
  have h1 := mem_trimL hc
  have h2 := mem_replaceList_empty h1
  have h3 := mem_replaceList_empty h2
  have h4 := mem_replaceList_empty h3
  exact mem_trimL h4

lemma commaDot_isDigit (c : Char) : (commaDot c).isDigit = c.isDigit := by
  by_cases h : c = ','
  · subst h; decide
  · simp [commaDot, h]

lemma findNum_eq_none {l : List Char} (h : ∀ c ∈ l, c.isDigit = false) :
    findNum l = none := by
  induction l with
  | nil => rfl
  | cons c rest ih =>
    have hc : c.isDigit = false := h c (List.mem_cons_self c rest)
    have hrest : ∀ x ∈ rest, x.isDigit = false :=
      fun x hx => h x (List.mem_cons_of_mem _ hx)
    have hfd : firstIsDigit rest = false := by
      cases rest with
      | nil => rfl
      | cons d rs => exact hrest d (List.mem_cons_self d rs)
    simp only [findNum, hc, hfd, Bool.false_eq_true, if_false, and_false]
    exact ih hrest

lemma findNum_map_commaDot_none {x : List Char} (h : ∀ c ∈ x, c.isDigit = false) :
    findNum (x.map commaDot) = none := by
  apply findNum_eq_none
  intro c hc
  rcases List.mem_map.mp hc with ⟨c0, hc0, rfl⟩
  rw [commaDot_isDigit]
  exact h c0 hc0

lemma to_floatParts_eq_none {l : List Char} (h : ∀ c ∈ l, c.isDigit = false) :
    to_floatParts l = none := by
  have hr : ∀ c ∈ stripStage l, c.isDigit = false :=
    fun c hc => h c (mem_stripStage hc)
  unfold to_floatParts
  by_cases hb : hasCommaDecimal (stripStage l)
  · rw [if_pos hb]
    exact findNum_map_commaDot_none
      (fun c hc => hr c (List.mem_of_mem_filter hc))
  · rw [if_neg hb]
    exact findNum_map_commaDot_none hr

/-- C1: calc_profit returns profit = final + withdraw - deposit - initial and
donation = max 0 (profit * 0.05); the donation in the second currency is
donation * exchange_rate; the donation is never negative, so a negative
profit yields donation 0; and calc_profit 500 0 0 600 = (100, 5). -/
theorem C1_calc_profit (initial deposit withdraw final rate : ℚ) :
    calc_profit initial deposit withdraw final =
      (final + withdraw - deposit - initial,
        max 0 ((final + withdraw - deposit - initial) * (5 / 100))) ∧
    donation_brl (calc_profit initial deposit withdraw final).2 rate =
      (calc_profit initial deposit withdraw final).2 * rate ∧
    0 ≤ (calc_profit initial deposit withdraw final).2 ∧
    ((calc_profit initial deposit withdraw final).1 < 0 →
      (calc_profit initial deposit withdraw final).2 = 0) ∧
    calc_profit 500 0 0 600 = (100, 5) := by
  refine ⟨rfl, rfl, ?_, ?_, by norm_num [calc_profit]⟩
  · simp only [calc_profit]
    exact le_max_left 0 _
  · intro hneg
    simp only [calc_profit] at hneg ⊢
    apply max_eq_left
    nlinarith

/-- C1 witness: the loss case of the spec, initial 500, deposit 60.35,
withdraw 24, final 522.65: the profit is negative and the donation is 0. -/
theorem C1_calc_profit_witness :
    (calc_profit 500 (6035 / 100) 24 (52265 / 100)).2 = 0 := by
  have h := C1_calc_profit 500 (6035 / 100) 24 (52265 / 100) 2
  exact h.2.2.2.1 (by norm_num [calc_profit])

/-- C6: the number normalizer is total and never fails: None gives 0.0, the
empty string gives 0.0, and every string without a numeric token (no digit
at all) gives 0.0. -/
theorem C6_to_float_total (s : String) (h : ∀ c ∈ s.toList, c.isDigit = false) :
    _to_float none = 0 ∧ _to_float (some "") = 0 ∧ _to_float (some s) = 0 := by
  refine ⟨rfl, rfl, ?_⟩
  show to_floatL s.toList = 0
  rw [to_floatL, to_floatParts_eq_none h]

/-- C6 witness: a concrete string with no numeric token normalizes to 0. -/
theorem C6_to_float_total_witness : _to_float (some "R$ abc") = 0 :=
  (C6_to_float_total "R$ abc" (by decide)).2.2

/- ------------------------------------------------------------------ -/
/- Closed forms of the three projection simulations.                   -/
/- ------------------------------------------------------------------ -/

/- Balance recurrence of projecao_2: grow, then contribute while the month
   index is at most meses_aporte. -/
def p2bal (inicial aporte : ℚ) (meses_aporte : ℕ) : ℕ → ℚ
  | 0 => inicial
  | m + 1 => p2bal inicial aporte meses_aporte m * _fator_mensal +
      (if m + 1 ≤ meses_aporte then aporte else 0)

/- Balance recurrence of projecao_3: grow, withdraw half the profit. -/
def p3bal (inicial : ℚ) : ℕ → ℚ
  | 0 => inicial
  | m + 1 =>
    p3bal inicial m * _fator_mensal -
      max 0 ((p3bal inicial m * _fator_mensal - p3bal inicial m) * (1 / 2))

/- Amount withdrawn during month m + 1 of projecao_3. -/
def p3w (inicial : ℚ) (m : ℕ) : ℚ :=
  max 0 ((p3bal inicial m * _fator_mensal - p3bal inicial m) * (1 / 2))

lemma range'_one_concat (n : ℕ) :
    List.range' 1 (n + 1) = List.range' 1 n ++ [n + 1] := by
  rw [List.range'_concat]
  simp [Nat.add_comm]

lemma projecao_1_succ (inicial : ℚ) (n : ℕ) :
    projecao_1 inicial (n + 1) =
      ((projecao_1 inicial n).1 * _fator_mensal,
        (projecao_1 inicial n).2 ++
          [(n + 1, (projecao_1 inicial n).1 * _fator_mensal)]) := by
  simp only [projecao_1, range'_one_concat, List.foldl_append, List.foldl_cons,
    List.foldl_nil]

lemma projecao_1_spec (inicial : ℚ) (meses : ℕ) :
    projecao_1 inicial meses =
      (inicial * _fator_mensal ^ meses,
        (List.range meses).map (fun j => (j + 1, inicial * _fator_mensal ^ (j + 1)))) := by
  induction meses with
  | zero => simp [projecao_1]
  | succ n ih =>
    rw [projecao_1_succ, ih]
    simp [List.range_succ, pow_succ, mul_assoc]

lemma projecao_2_succ (inicial : ℚ) (n : ℕ) (aporte : ℚ) (meses_aporte : ℕ) :
    projecao_2 inicial (n + 1) aporte meses_aporte =
      (((projecao_2 inicial n aporte meses_aporte).1 * _fator_mensal +
          (if n + 1 ≤ meses_aporte then aporte else 0)),
        (projecao_2 inicial n aporte meses_aporte).2 ++
          [(n + 1, (projecao_2 inicial n aporte meses_aporte).1 * _fator_mensal +
            (if n + 1 ≤ meses_aporte then aporte else 0))]) := by
  simp only [projecao_2, range'_one_concat, List.foldl_append, List.foldl_cons,
    List.foldl_nil]
  by_cases hm : n + 1 ≤ meses_aporte <;> simp [hm]

lemma projecao_2_spec (inicial : ℚ) (meses_total : ℕ) (aporte : ℚ) (meses_aporte : ℕ) :
    projecao_2 inicial meses_total aporte meses_aporte =
      (p2bal inicial aporte meses_aporte meses_total,
        (List.range meses_total).map
          (fun j => (j + 1, p2bal inicial aporte meses_aporte (j + 1)))) := by
  induction meses_total with
  | zero => simp [projecao_2, p2bal]
  | succ n ih =>
    rw [projecao_2_succ, ih]
    simp [List.range_succ, p2bal]

lemma projecao_3_succ (inicial : ℚ) (n : ℕ) :
    projecao_3 inicial (n + 1) =
      ((projecao_3 inicial n).1 * _fator_mensal -
          max 0 (((projecao_3 inicial n).1 * _fator_mensal -
            (projecao_3 inicial n).1) * (1 / 2)),
        (projecao_3 inicial n).2.1 +
          max 0 (((projecao_3 inicial n).1 * _fator_mensal -
            (projecao_3 inicial n).1) * (1 / 2)),
        (projecao_3 inicial n).2.2 ++
          [(n + 1,
            (projecao_3 inicial n).1 * _fator_mensal -
              max 0 (((projecao_3 inicial n).1 * _fator_mensal -
                (projecao_3 inicial n).1) * (1 / 2)),
            max 0 (((projecao_3 inicial n).1 * _fator_mensal -
              (projecao_3 inicial n).1) * (1 / 2)))]) := by
  simp only [projecao_3, range'_one_concat, List.foldl_append, List.foldl_cons,
    List.foldl_nil]

lemma projecao_3_spec (inicial : ℚ) (meses : ℕ) :
    projecao_3 inicial meses =
      (p3bal inicial meses,
        ((List.range meses).map (p3w inicial)).sum,
        (List.range meses).map
          (fun j => (j + 1, p3bal inicial (j + 1), p3w inicial j))) := by
  induction meses with
  | zero => simp [projecao_3, p3bal]
  | succ n ih =>
    rw [projecao_3_succ, ih]
    simp only [List.range_succ, List.map_append, List.map_cons, List.map_nil,
      List.sum_append, List.sum_cons, List.sum_nil]
    refine congrArg₂ Prod.mk ?_ (congrArg₂ Prod.mk ?_ ?_)
    · rfl
    · simp [p3w]
    · simp [p3bal, p3w]

/-- C3: in projecao_2 each month multiplies the balance by the monthly
factor first and only then, when the month index is at most meses_aporte,
adds the contribution, so the growth applies to the pre-contribution
balance; for (1000, 10, 100, 6) months 1..6 each add exactly 100 after
compounding and months 7..10 add nothing. -/
theorem C3_projecao_2_contribution (inicial : ℚ) (meses_total : ℕ) (aporte : ℚ)
    (meses_aporte : ℕ) :
    (projecao_2 inicial meses_total aporte meses_aporte =
      (p2bal inicial aporte meses_aporte meses_total,
        (List.range meses_total).map
          (fun j => (j + 1, p2bal inicial aporte meses_aporte (j + 1))))) ∧
    (∀ m : ℕ, p2bal inicial aporte meses_aporte (m + 1) =
      p2bal inicial aporte meses_aporte m * _fator_mensal +
        (if m + 1 ≤ meses_aporte then aporte else 0)) ∧
    (∀ m : ℕ, m + 1 ≤ 6 →
      p2bal 1000 100 6 (m + 1) = p2bal 1000 100 6 m * _fator_mensal + 100) ∧
    (∀ m : ℕ, 7 ≤ m + 1 → m + 1 ≤ 10 →
      p2bal 1000 100 6 (m + 1) = p2bal 1000 100 6 m * _fator_mensal) := by
  refine ⟨projecao_2_spec inicial meses_total aporte meses_aporte,
    fun m => rfl, ?_, ?_⟩
  · intro m hm
    rw [p2bal, if_pos hm]
  · intro m hm _
    rw [p2bal, if_neg (by omega)]
    ring

/-- C3 witness: at (1000, 10, 100, 6), month 3 adds exactly 100 after
compounding and month 8 adds nothing. -/
theorem C3_projecao_2_contribution_witness :
    p2bal 1000 100 6 3 = p2bal 1000 100 6 2 * _fator_mensal + 100 ∧
    p2bal 1000 100 6 8 = p2bal 1000 100 6 7 * _fator_mensal := by
  have h := C3_projecao_2_contribution 1000 10 100 6
  exact ⟨h.2.2.1 2 (by norm_num), h.2.2.2 7 (by norm_num) (by norm_num)⟩

/-- C4: in projecao_3, every month withdraws max 0 (half of grown minus
start), which is nonnegative; the balance after the month is grown minus
withdrawn; the series entry is (month, balance after, withdrawn); and the
returned cumulative total equals the sum of the per-month withdrawals. -/
theorem C4_projecao_3_invariants (inicial : ℚ) (meses : ℕ) :
    (projecao_3 inicial meses =
      (p3bal inicial meses,
        ((List.range meses).map (p3w inicial)).sum,
        (List.range meses).map
          (fun j => (j + 1, p3bal inicial (j + 1), p3w inicial j)))) ∧
    (∀ m : ℕ, p3w inicial m =
      max 0 ((p3bal inicial m * _fator_mensal - p3bal inicial m) * (1 / 2))) ∧
    (∀ m : ℕ, 0 ≤ p3w inicial m) ∧
    (∀ m : ℕ, p3bal inicial (m + 1) =
      p3bal inicial m * _fator_mensal - p3w inicial m) :=
  ⟨projecao_3_spec inicial meses, fun _ => rfl,
    fun _ => le_max_left 0 _, fun _ => rfl⟩

/-- C5: every engine returns the initial balance and an empty series for
zero months; the series always has exactly one entry per simulated month,
with month indices 1..meses (no truncation in the engine); the 12-entry
truncation lives in the display formatter; projecao_1 1000 0 = (1000, [])
and projecao_1 1000 1 ends at 1000 * 1.0128 ^ 22. -/
theorem C5_engines_complete_series (inicial aporte : ℚ) (meses_aporte : ℕ) :
    projecao_1 inicial 0 = (inicial, []) ∧
    projecao_2 inicial 0 aporte meses_aporte = (inicial, []) ∧
    projecao_3 inicial 0 = (inicial, 0, []) ∧
    (∀ meses : ℕ,
      (projecao_1 inicial meses).2.length = meses ∧
      (projecao_2 inicial meses aporte meses_aporte).2.length = meses ∧
      (projecao_3 inicial meses).2.2.length = meses ∧
      (projecao_1 inicial meses).2.map Prod.fst = List.range' 1 meses) ∧
    (∀ (valores : List (ℕ × ℚ)) (mt : ℕ),
      (linhasMensaisPadraoList valores mt).length =
        min 12 valores.length + (if 12 < mt then 1 else 0)) ∧
    projecao_1 1000 0 = ((1000 : ℚ), []) ∧
    (projecao_1 1000 1).1 = 1000 * ((10128 / 10000 : ℚ)) ^ 22 := by
  refine ⟨rfl, rfl, rfl, ?_, ?_, rfl, ?_⟩
  · intro meses
    rw [projecao_1_spec, projecao_2_spec, projecao_3_spec]
    refine ⟨by simp, by simp, by simp, ?_⟩
    simp only [List.map_map]
    rw [List.range'_eq_map_range]
    apply List.map_congr_left
    intro j _
    simp [Nat.add_comm]
  · intro valores mt
    by_cases hmt : 12 < mt <;>
      simp [linhasMensaisPadraoList, hmt, List.length_take, Nat.min_comm]
  · rw [projecao_1_spec]
    norm_num [_fator_mensal, DAILY_RATE, DAYS_PER_MONTH]

/-- C10: the monthly factor exceeds 1 and projecao_1 records balance
inicial * factor ^ m at month m, so for a nonnegative initial balance the
series is monotone (strictly when the balance is positive) and the final
balance is at least the initial one. -/
theorem C10_projecao_1_growth (inicial : ℚ) (meses : ℕ) (h : 0 ≤ inicial) :
    1 < _fator_mensal ∧
    (projecao_1 inicial meses).1 = inicial * _fator_mensal ^ meses ∧
    (projecao_1 inicial meses).2 =
      (List.range meses).map (fun j => (j + 1, inicial * _fator_mensal ^ (j + 1))) ∧
    List.Pairwise (fun p q : ℕ × ℚ => p.2 ≤ q.2) (projecao_1 inicial meses).2 ∧
    (0 < inicial →
      List.Pairwise (fun p q : ℕ × ℚ => p.2 < q.2) (projecao_1 inicial meses).2) ∧
    inicial ≤ (projecao_1 inicial meses).1 := by
  have hf : 1 < _fator_mensal := by
    have h1 : (1 : ℚ) < 1 + DAILY_RATE := by norm_num [DAILY_RATE]
    have := one_lt_pow₀ h1 (n := DAYS_PER_MONTH) (by norm_num [DAYS_PER_MONTH])
    simpa [_fator_mensal] using this
  have hspec := projecao_1_spec inicial meses
  refine ⟨hf, by rw [hspec], by rw [hspec], ?_, ?_, ?_⟩
  · rw [hspec]
    apply List.Pairwise.map _ _ (List.pairwise_lt_range meses)
    intro a b hab
    exact mul_le_mul_of_nonneg_left (pow_le_pow_right₀ hf.le (by omega)) h
  · intro hpos
    rw [hspec]
    apply List.Pairwise.map _ _ (List.pairwise_lt_range meses)
    intro a b hab
    exact mul_lt_mul_of_pos_left (pow_lt_pow_right₀ hf (by omega)) hpos
  · rw [hspec]
    have h1 : (1 : ℚ) ≤ _fator_mensal ^ meses := one_le_pow₀ hf.le
    exact le_mul_of_one_le_right h h1

/-- C10 witness: at initial balance 1000 over 3 months the final balance is
at least 1000 and the series is strictly increasing. -/
theorem C10_projecao_1_growth_witness :
    1000 ≤ (projecao_1 1000 3).1 ∧
    List.Pairwise (fun p q : ℕ × ℚ => p.2 < q.2) (projecao_1 1000 3).2 := by
  have h := C10_projecao_1_growth 1000 3 (by norm_num)
  exact ⟨h.2.2.2.2.2, h.2.2.2.2.1 (by norm_num)⟩

/- ------------------------------------------------------------------ -/
/- _num_list and the projection-command argument extraction.           -/
/- ------------------------------------------------------------------ -/

lemma ratOfParts_false_nonneg (ip fp : List Char) : 0 ≤ ratOfParts false ip fp := by
  simp only [ratOfParts, Bool.false_eq_true, if_false]
  positivity

lemma pyFloatTok_nonneg (t : List Char) : 0 ≤ pyFloatTok t := by
  unfold pyFloatTok
  split
  · exact ratOfParts_false_nonneg _ _
  · exact ratOfParts_false_nonneg _ _

lemma num_list_all_nonneg (args : List String) : ∀ x ∈ _num_list args, 0 ≤ x := by
  intro x hx
  simp only [_num_list, List.mem_map] at hx
  rcases hx with ⟨tok, _, rfl⟩
  exact pyFloatTok_nonneg _

lemma pyInt_of_nonneg {q : ℚ} (h : 0 ≤ q) : pyInt q = ⌊q⌋ := by
  simp [pyInt, h]

/-- C9: the token pattern of _num_list admits no minus sign, so every value
it returns is nonnegative and its int() truncation is the (nonnegative)
floor; consequently p1, p2 and p3 can never hand a negative initial
balance, month count or contribution to the projection engines. -/
theorem C9_num_list_nonneg (args : List String) :
    (∀ x ∈ _num_list args, 0 ≤ x ∧ pyInt x = ⌊x⌋ ∧ 0 ≤ pyInt x) ∧
    (∀ i m, p1_args args = some (i, m) → 0 ≤ i ∧ 0 ≤ m) ∧
    (∀ i mt a ma, p2_args args = some (i, mt, a, ma) →
      0 ≤ i ∧ 0 ≤ mt ∧ 0 ≤ a ∧ 0 ≤ ma) ∧
    (∀ i m, p3_args args = some (i, m) → 0 ≤ i ∧ 0 ≤ m) := by
  have hall := num_list_all_nonneg args
  have hmain : ∀ x ∈ _num_list args, 0 ≤ x ∧ pyInt x = ⌊x⌋ ∧ 0 ≤ pyInt x := by
    intro x hx
    have hx0 := hall x hx
    refine ⟨hx0, pyInt_of_nonneg hx0, ?_⟩
    rw [pyInt_of_nonneg hx0]
    exact Int.floor_nonneg.mpr hx0
  refine ⟨hmain, ?_, ?_, ?_⟩
  · intro i m h
    revert h
    unfold p1_args
    rcases hn : _num_list args with _ | ⟨a, _ | ⟨b, rest⟩⟩ <;> intro h
    · exact absurd h (by simp)
    · exact absurd h (by simp)
    · have ha : a ∈ _num_list args := by rw [hn]; exact List.mem_cons_self _ _
      have hb : b ∈ _num_list args := by
        rw [hn]; exact List.mem_cons_of_mem _ (List.mem_cons_self _ _)
      simp only [Option.some.injEq, Prod.mk.injEq] at h
      rcases h with ⟨rfl, rfl⟩
      exact ⟨(hmain a ha).1, (hmain b hb).2.2⟩
  · intro i mt a2 ma h
    revert h
    unfold p2_args
    rcases hn : _num_list args with _ | ⟨a, _ | ⟨b, _ | ⟨c, _ | ⟨d, rest⟩⟩⟩⟩ <;> intro h
    · exact absurd h (by simp)
    · exact absurd h (by simp)
    · exact absurd h (by simp)
    · exact absurd h (by simp)
    · have ha : a ∈ _num_list args := by rw [hn]; exact List.mem_cons_self _ _
      have hb : b ∈ _num_list args := by
        rw [hn]; exact List.mem_cons_of_mem _ (List.mem_cons_self _ _)
      have hc : c ∈ _num_list args := by
        rw [hn]
        exact List.mem_cons_of_mem _ (List.mem_cons_of_mem _ (List.mem_cons_self _ _))
      have hd : d ∈ _num_list args := by
        rw [hn]
        exact List.mem_cons_of_mem _ (List.mem_cons_of_mem _
          (List.mem_cons_of_mem _ (List.mem_cons_self _ _)))
      simp only [Option.some.injEq, Prod.mk.injEq] at h
      rcases h with ⟨rfl, rfl, rfl, rfl⟩
      exact ⟨(hmain a ha).1, (hmain b hb).2.2, (hmain c hc).1, (hmain d hd).2.2⟩
  · intro i m h
    revert h
    unfold p3_args
    rcases hn : _num_list args with _ | ⟨a, _ | ⟨b, rest⟩⟩ <;> intro h
    · exact absurd h (by simp)
    · exact absurd h (by simp)
    · have ha : a ∈ _num_list args := by rw [hn]; exact List.mem_cons_self _ _
      have hb : b ∈ _num_list args := by
        rw [hn]; exact List.mem_cons_of_mem _ (List.mem_cons_self _ _)
      simp only [Option.some.injEq, Prod.mk.injEq] at h
      rcases h with ⟨rfl, rfl⟩
      exact ⟨(hmain a ha).1, (hmain b hb).2.2⟩

/-- C9 witness: on the argument list of a call like p1 1000 10,5 the
extracted values are nonnegative, and so are their int() truncations. -/
theorem C9_num_list_nonneg_witness :
    0 ≤ pyFloatTok (List.map commaDot ['1', '0', ',', '5']) ∧
    0 ≤ pyInt (pyFloatTok (List.map commaDot ['1', '0', ',', '5'])) ∧
    0 ≤ pyFloatTok (List.map commaDot ['1', '0', '0', '0']) := by
  have hs : lowerL ((String.intercalate " " ["1000", "10,5"]).toList) =
      "1000 10,5".toList := by decide
  have hf : findAllNums ("1000 10,5".toList) =
      [['1', '0', '0', '0'], ['1', '0', ',', '5']] := by decide
  have h1 : _num_list ["1000", "10,5"] =
      [pyFloatTok (List.map commaDot ['1', '0', '0', '0']),
        pyFloatTok (List.map commaDot ['1', '0', ',', '5'])] := by
    rw [show _num_list ["1000", "10,5"] =
      (findAllNums (lowerL ((String.intercalate " " ["1000", "10,5"]).toList))).map
        (fun x => pyFloatTok (x.map commaDot)) from rfl, hs, hf]
    rfl
  have hmem : pyFloatTok (List.map commaDot ['1', '0', ',', '5']) ∈
      _num_list ["1000", "10,5"] := by
    rw [h1]; exact List.mem_cons_of_mem _ (List.mem_cons_self _ _)
  have hmem0 : pyFloatTok (List.map commaDot ['1', '0', '0', '0']) ∈
      _num_list ["1000", "10,5"] := by
    rw [h1]; exact List.mem_cons_self _ _
  have h := (C9_num_list_nonneg ["1000", "10,5"]).1
  exact ⟨(h _ hmem).1, (h _ hmem).2.2, (h _ hmem0).1⟩

/- ------------------------------------------------------------------ -/
/- Locale disambiguation of the number normalizer (claim C2).          -/
/- ------------------------------------------------------------------ -/

/- A Brazilian-grouped integer part: nonempty digit groups separated by
   points, paired with the plain digit string obtained by dropping the
   points. -/
inductive GroupedDigits : List Char → List Char → Prop
  | single (g : List Char) (hne : g ≠ []) (hd : ∀ c ∈ g, c.isDigit = true) :
      GroupedDigits g g
  | cons (g s ds : List Char) (hne : g ≠ []) (hd : ∀ c ∈ g, c.isDigit = true)
      (h : GroupedDigits s ds) : GroupedDigits (g ++ '.' :: s) (g ++ ds)

lemma GroupedDigits.chars {s ds : List Char} (h : GroupedDigits s ds) :
    ∀ c ∈ s, c.isDigit = true ∨ c = '.' := by
  induction h with
  | single g hne hd => exact fun c hc => Or.inl (hd c hc)
  | cons g s2 ds2 hne hd _ ih =>
    intro c hc
    rcases List.mem_append.mp hc with hc | hc
    · exact Or.inl (hd c hc)
    · rcases List.mem_cons.mp hc with rfl | hc
      · exact Or.inr rfl
      · exact ih c hc

lemma GroupedDigits.ds_digits {s ds : List Char} (h : GroupedDigits s ds) :
    ∀ c ∈ ds, c.isDigit = true := by
  induction h with
  | single g hne hd => exact hd
  | cons g s2 ds2 hne hd _ ih =>
    intro c hc
    rcases List.mem_append.mp hc with hc | hc
    · exact hd c hc
    · exact ih c hc

lemma GroupedDigits.ds_ne {s ds : List Char} (h : GroupedDigits s ds) : ds ≠ [] := by
  induction h with
  | single g hne hd => exact hne
  | cons g s2 ds2 hne hd _ ih =>
    intro hh
    exact hne (List.append_eq_nil.mp hh).1

lemma digit_ne_seps {c : Char} (h : c.isDigit = true) :
    c ≠ ',' ∧ c ≠ '.' := by
  constructor
  · intro he; subst he; exact absurd h (by decide)
  · intro he; subst he; exact absurd h (by decide)

lemma digit_char_facts {c : Char} (h : c.isDigit = true ∨ c = '.' ∨ c = ',') :
    c ≠ 'R' ∧ c ≠ 'U' ∧ c.isWhitespace = false := by
  rcases h with h | rfl | rfl
  · refine ⟨fun he => by subst he; exact absurd h (by decide),
      fun he => by subst he; exact absurd h (by decide), ?_⟩
    by_cases hw : c.isWhitespace
    · exfalso
      simp only [Char.isWhitespace, Bool.or_eq_true, decide_eq_true_eq] at hw
      rcases hw with ((rfl | rfl) | rfl) | rfl <;> exact absurd h (by decide)
    · simpa using hw
  · exact ⟨by decide, by decide, by decide⟩
  · exact ⟨by decide, by decide, by decide⟩

lemma dropWhile_eq_self_of {p : Char → Bool} {l : List Char}
    (h : ∀ c ∈ l, p c = false) : l.dropWhile p = l := by
  cases l with
  | nil => rfl
  | cons a rest =>
    rw [List.dropWhile_cons, h a (List.mem_cons_self a rest)]
    simp

lemma trimL_eq_self {l : List Char} (h : ∀ c ∈ l, c.isWhitespace = false) :
    trimL l = l := by
  unfold trimL
  rw [dropWhile_eq_self_of h, dropWhile_eq_self_of
    (fun c hc => h c (List.mem_reverse.mp hc)), List.reverse_reverse]

lemma replaceFuel_eq_self (h0 : Char) (pt rep : List Char) :
    ∀ (fuel : ℕ) (l : List Char), (∀ c ∈ l, c ≠ h0) →
      replaceFuel (h0 :: pt) rep fuel l = l := by
  intro fuel
  induction fuel with
  | zero =>
    intro l _
    cases l <;> rfl
  | succ n ih =>
    intro l hl
    cases l with
    | nil => rfl
    | cons c rest =>
      have hc : c ≠ h0 := hl c (List.mem_cons_self c rest)
      have hb : (h0 == c) = false := beq_eq_false_iff_ne.mpr (fun he => hc he.symm)
      have hpre : isPrefixL (h0 :: pt) (c :: rest) = false := by
        simp [isPrefixL, hb]
      rw [replaceFuel, if_neg (by simp [hpre])]
      exact congrArg (c :: ·) (ih rest (fun x hx => hl x (List.mem_cons_of_mem _ hx)))

lemma replaceList_eq_self (h0 : Char) (pt rep : List Char) {l : List Char}
    (h : ∀ c ∈ l, c ≠ h0) : replaceList (h0 :: pt) rep l = l :=
  replaceFuel_eq_self h0 pt rep l.length l h

lemma stripStage_eq_self {l : List Char}
    (h : ∀ c ∈ l, c.isDigit = true ∨ c = '.' ∨ c = ',') : stripStage l = l := by
  have hR : ∀ c ∈ l, c ≠ 'R' := fun c hc => (digit_char_facts (h c hc)).1
  have hU : ∀ c ∈ l, c ≠ 'U' := fun c hc => (digit_char_facts (h c hc)).2.1
  have hW : ∀ c ∈ l, c.isWhitespace = false := fun c hc => (digit_char_facts (h c hc)).2.2
  unfold stripStage
  rw [trimL_eq_self hW]
  rw [show ("R$".toList) = 'R' :: ['$'] from rfl, replaceList_eq_self _ _ _ hR]
  rw [show ("USDT".toList) = 'U' :: ['S', 'D', 'T'] from rfl, replaceList_eq_self _ _ _ hU]
  rw [show ("USD".toList) = 'U' :: ['S', 'D'] from rfl, replaceList_eq_self _ _ _ hU]
  exact trimL_eq_self hW

lemma hasCommaDecimal_cons {l : List Char} (a : Char)
    (h : hasCommaDecimal l = true) : hasCommaDecimal (a :: l) = true := by
  rcases l with _ | ⟨b, _ | ⟨c, rest⟩⟩
  · simp [hasCommaDecimal] at h
  · simp [hasCommaDecimal] at h
  · rw [hasCommaDecimal, h]
    simp

lemma hasCommaDecimal_append {l : List Char} (pre : List Char)
    (h : hasCommaDecimal l = true) : hasCommaDecimal (pre ++ l) = true := by
  induction pre with
  | nil => simpa
  | cons a pre2 ih =>
    rw [List.cons_append]
    exact hasCommaDecimal_cons a ih

lemma hasCommaDecimal_digit_comma (d : Char) (hdig : d.isDigit = true)
    (rest : List Char) :
    ∀ g : List Char, g ≠ [] → (∀ c ∈ g, c.isDigit = true) →
      hasCommaDecimal (g ++ ',' :: d :: rest) = true := by
  intro g
  induction g with
  | nil => intro h _; exact absurd rfl h
  | cons x g2 ih =>
    intro _ hd
    have hx := hd x (List.mem_cons_self _ _)
    cases g2 with
    | nil =>
      rw [List.cons_append, List.nil_append, hasCommaDecimal]
      simp [hx, hdig]
    | cons y g3 =>
      rw [List.cons_append]
      exact hasCommaDecimal_cons x
        (ih (by simp) (fun c hc => hd c (List.mem_cons_of_mem _ hc)))

lemma GroupedDigits.hasCommaDecimal_comma {s ds : List Char}
    (h : GroupedDigits s ds) (d : Char) (hdig : d.isDigit = true)
    (rest : List Char) : hasCommaDecimal (s ++ ',' :: d :: rest) = true := by
  induction h with
  | single g hne hd => exact hasCommaDecimal_digit_comma d hdig rest g hne hd
  | cons g s2 ds2 hne hd h2 ih =>
    rw [List.append_assoc, List.cons_append]
    exact hasCommaDecimal_append g (hasCommaDecimal_cons '.' ih)

lemma hasCommaDecimal_eq_false {l : List Char} (h : ∀ c ∈ l, c ≠ ',') :
    hasCommaDecimal l = false := by
  induction l with
  | nil => rfl
  | cons a rest ih =>
    have hrest := fun c hc => h c (List.mem_cons_of_mem a hc)
    rcases rest with _ | ⟨b, _ | ⟨c2, rest2⟩⟩
    · rfl
    · rfl
    · have hb : (b == ',') = false :=
        beq_eq_false_iff_ne.mpr (h b (List.mem_cons_of_mem a (List.mem_cons_self _ _)))
      rw [hasCommaDecimal, ih hrest, hb]
      simp

lemma filter_dot_of_ne {l : List Char} (h : ∀ c ∈ l, c ≠ '.') :
    l.filter (fun c => c != '.') = l := by
  apply List.filter_eq_self.mpr
  intro a ha
  exact bne_iff_ne.mpr (h a ha)

lemma map_commaDot_of_ne {l : List Char} (h : ∀ c ∈ l, c ≠ ',') :
    l.map commaDot = l := by
  have h2 : ∀ c ∈ l, commaDot c = id c := by
    intro c hc
    simp [commaDot, h c hc]
  rw [List.map_congr_left h2, List.map_id]

lemma GroupedDigits.filter_dot_eq {s ds : List Char} (h : GroupedDigits s ds) :
    s.filter (fun c => c != '.') = ds := by
  induction h with
  | single g hne hd => exact filter_dot_of_ne (fun c hc => (digit_ne_seps (hd c hc)).2)
  | cons g s2 ds2 hne hd h2 ih =>
    rw [List.filter_append, filter_dot_of_ne (fun c hc => (digit_ne_seps (hd c hc)).2),
      List.filter_cons]
    simp only [show (('.' : Char) != '.') = false from rfl, Bool.false_eq_true, if_false]
    rw [ih]

lemma takeWhile_digits_append {ds : List Char} (hd : ∀ c ∈ ds, c.isDigit = true)
    {r : List Char} (hr : firstIsDigit r = false) :
    (ds ++ r).takeWhile Char.isDigit = ds ∧ (ds ++ r).dropWhile Char.isDigit = r := by
  induction ds with
  | nil =>
    simp only [List.nil_append]
    cases r with
    | nil => exact ⟨rfl, rfl⟩
    | cons a rest =>
      have ha : a.isDigit = false := hr
      constructor
      · rw [List.takeWhile_cons, ha]; simp
      · rw [List.dropWhile_cons, ha]; simp
  | cons d ds2 ih =>
    have hdd := hd d (List.mem_cons_self _ _)
    have ih2 := ih (fun c hc => hd c (List.mem_cons_of_mem _ hc))
    constructor
    · rw [List.cons_append, List.takeWhile_cons, hdd]
      simp only [if_true]
      rw [ih2.1]
    · rw [List.cons_append, List.dropWhile_cons, hdd]
      simp only [if_true]
      exact ih2.2

lemma findNum_digits_dot {ds fs : List Char} (hne : ds ≠ [])
    (hd : ∀ c ∈ ds, c.isDigit = true) (hfd : ∀ c ∈ fs, c.isDigit = true) :
    findNum (ds ++ '.' :: fs) = some (false, ds, fs) := by
  cases ds with
  | nil => exact absurd rfl hne
  | cons d ds2 =>
    have hdd := hd d (List.mem_cons_self _ _)
    have hrest := fun c hc => hd c (List.mem_cons_of_mem d hc)
    have htw := takeWhile_digits_append hrest (r := '.' :: fs) rfl
    have hfs : (fs ++ []).takeWhile Char.isDigit = fs ∧
        (fs ++ []).dropWhile Char.isDigit = [] :=
      takeWhile_digits_append hfd (r := []) rfl
    rw [List.append_nil] at hfs
    rw [List.cons_append]
    simp only [findNum, hdd, if_true]
    rw [htw.1, htw.2]
    simp [fracPart, hfs.1]

/-- C2: the normalizer treats the comma as the decimal point exactly when a
digit-comma-digit pattern occurs after currency stripping (then every
period is dropped as grouping), else commas become points; consequently a
Brazilian-grouped numeral and its plain period-decimal form give the same
value, e.g. 1.234,56 and 1234.56 both give 1234.56. -/
theorem C2_to_float_locale (s ds fs : List Char) (hgd : GroupedDigits s ds)
    (hfs : fs ≠ []) (hfsd : ∀ c ∈ fs, c.isDigit = true) :
    (∀ l : List Char, to_floatL l =
      if hasCommaDecimal (stripStage l) then
        numOf (((stripStage l).filter (fun c => c != '.')).map commaDot)
      else numOf ((stripStage l).map commaDot)) ∧
    to_floatL (s ++ ',' :: fs) = to_floatL (ds ++ '.' :: fs) ∧
    to_floatL (ds ++ '.' :: fs) =
      (digitsVal ds : ℚ) + (digitsVal fs : ℚ) / (10 : ℚ) ^ fs.length ∧
    _to_float (some "1.234,56") = 123456 / 100 ∧
    _to_float (some "1234.56") = 123456 / 100 := by
  have hbranch : ∀ l : List Char, to_floatL l =
      if hasCommaDecimal (stripStage l) then
        numOf (((stripStage l).filter (fun c => c != '.')).map commaDot)
      else numOf ((stripStage l).map commaDot) := by
    intro l
    by_cases hb : hasCommaDecimal (stripStage l) <;>
      simp [to_floatL, to_floatParts, numOf, hb]
  obtain ⟨d, fs2, rfl⟩ : ∃ d fs2, fs = d :: fs2 := by
    cases fs with
    | nil => exact absurd rfl hfs
    | cons d f2 => exact ⟨d, f2, rfl⟩
  have hdd : d.isDigit = true := hfsd d (List.mem_cons_self _ _)
  have hds := hgd.ds_digits
  have hdsne := hgd.ds_ne
  have hlchars : ∀ c ∈ s ++ ',' :: d :: fs2, c.isDigit = true ∨ c = '.' ∨ c = ',' := by
    intro c hc
    rcases List.mem_append.mp hc with hc | hc
    · rcases hgd.chars c hc with h | h
      · exact Or.inl h
      · exact Or.inr (Or.inl h)
    · rcases List.mem_cons.mp hc with rfl | hc
      · exact Or.inr (Or.inr rfl)
      · exact Or.inl (hfsd c hc)
  have hrchars : ∀ c ∈ ds ++ '.' :: d :: fs2, c.isDigit = true ∨ c = '.' ∨ c = ',' := by
    intro c hc
    rcases List.mem_append.mp hc with hc | hc
    · exact Or.inl (hds c hc)
    · rcases List.mem_cons.mp hc with rfl | hc
      · exact Or.inr (Or.inl rfl)
      · exact Or.inl (hfsd c hc)
  have hstrip1 : stripStage (s ++ ',' :: d :: fs2) = s ++ ',' :: d :: fs2 :=
    stripStage_eq_self hlchars
  have hstrip2 : stripStage (ds ++ '.' :: d :: fs2) = ds ++ '.' :: d :: fs2 :=
    stripStage_eq_self hrchars
  have hb1 : hasCommaDecimal (s ++ ',' :: d :: fs2) = true :=
    hgd.hasCommaDecimal_comma d hdd fs2
  have hb2 : hasCommaDecimal (ds ++ '.' :: d :: fs2) = false := by
    apply hasCommaDecimal_eq_false
    intro c hc
    rcases hrchars c hc with h | h | h
    · exact (digit_ne_seps h).1
    · subst h; decide
    · subst h
      exfalso
      rcases List.mem_append.mp hc with hc | hc
      · exact absurd (hds ',' hc) (by decide)
      · rcases List.mem_cons.mp hc with he | hc
        · exact absurd he.symm (by decide)
        · exact absurd (hfsd ',' hc) (by decide)
  have hfilter : (s ++ ',' :: d :: fs2).filter (fun c => c != '.') =
      ds ++ ',' :: d :: fs2 := by
    rw [List.filter_append, hgd.filter_dot_eq]
    congr 1
    rw [List.filter_cons]
    simp only [show ((',' : Char) != '.') = true from rfl, if_true]
    congr 1
    exact filter_dot_of_ne (fun c hc => (digit_ne_seps (hfsd c hc)).2)
  have hmap1 : (ds ++ ',' :: d :: fs2).map commaDot = ds ++ '.' :: d :: fs2 := by
    rw [List.map_append, List.map_cons,
      map_commaDot_of_ne (fun c hc => (digit_ne_seps (hds c hc)).1),
      map_commaDot_of_ne (fun c hc => (digit_ne_seps (hfsd c hc)).1)]
    rfl
  have hmap2 : (ds ++ '.' :: d :: fs2).map commaDot = ds ++ '.' :: d :: fs2 := by
    apply map_commaDot_of_ne
    intro c hc
    rcases hrchars c hc with h | h | h
    · exact (digit_ne_seps h).1
    · subst h; decide
    · subst h
      exfalso
      rcases List.mem_append.mp hc with hc | hc
      · exact absurd (hds ',' hc) (by decide)
      · rcases List.mem_cons.mp hc with he | hc
        · exact absurd he.symm (by decide)
        · exact absurd (hfsd ',' hc) (by decide)
  have hparts1 : to_floatParts (s ++ ',' :: d :: fs2) = some (false, ds, d :: fs2) := by
    unfold to_floatParts
    rw [hstrip1, if_pos hb1, hfilter, hmap1]
    exact findNum_digits_dot hdsne hds hfsd
  have hparts2 : to_floatParts (ds ++ '.' :: d :: fs2) = some (false, ds, d :: fs2) := by
    unfold to_floatParts
    rw [hstrip2, if_neg (by simp [hb2]), hmap2]
    exact findNum_digits_dot hdsne hds hfsd
  refine ⟨hbranch, ?_, ?_, ?_, ?_⟩
  · rw [to_floatL, to_floatL, hparts1, hparts2]
  · rw [to_floatL, hparts2]
    simp [ratOfParts]
  · have h : to_floatParts ['1', '.', '2', '3', '4', ',', '5', '6'] =
        some (false, ['1', '2', '3', '4'], ['5', '6']) := by decide
    have h1 : digitsVal ['1', '2', '3', '4'] = 1234 := by decide
    have h2 : digitsVal ['5', '6'] = 56 := by decide
    show to_floatL ("1.234,56".toList) = 123456 / 100
    simp [to_floatL, h, ratOfParts, h1, h2]
    norm_num
  · have h : to_floatParts ['1', '2', '3', '4', '.', '5', '6'] =
        some (false, ['1', '2', '3', '4'], ['5', '6']) := by decide
    have h1 : digitsVal ['1', '2', '3', '4'] = 1234 := by decide
    have h2 : digitsVal ['5', '6'] = 56 := by decide
    show to_floatL ("1234.56".toList) = 123456 / 100
    simp [to_floatL, h, ratOfParts, h1, h2]
    norm_num

/-- C2 witness: the spec's pair, grouped 1.234,56 versus plain 1234.56. -/
theorem C2_to_float_locale_witness :
    to_floatL (['1', '.', '2', '3', '4'] ++ ',' :: ['5', '6']) =
      to_floatL (['1', '2', '3', '4'] ++ '.' :: ['5', '6']) ∧
    to_floatL (['1', '2', '3', '4'] ++ '.' :: ['5', '6']) =
      (digitsVal ['1', '2', '3', '4'] : ℚ) +
        (digitsVal ['5', '6'] : ℚ) / (10 : ℚ) ^ (['5', '6'] : List Char).length ∧
    _to_float (some "1.234,56") = 123456 / 100 := by
  have hgd : GroupedDigits ['1', '.', '2', '3', '4'] ['1', '2', '3', '4'] := by
    have h1 : GroupedDigits ['2', '3', '4'] ['2', '3', '4'] :=
      GroupedDigits.single ['2', '3', '4'] (by simp) (by decide)
    exact GroupedDigits.cons ['1'] ['2', '3', '4'] ['2', '3', '4']
      (by simp) (by decide) h1
  have h := C2_to_float_locale ['1', '.', '2', '3', '4'] ['1', '2', '3', '4']
    ['5', '6'] hgd (by simp) (by decide)
  exact ⟨h.2.1, h.2.2.1, h.2.2.2.1⟩

/- ------------------------------------------------------------------ -/
/- Aggregation (claims about resumo and meus_resumo).                  -/
/- ------------------------------------------------------------------ -/

lemma to_floatS_zero : to_floatS "0" = 0 := by
  have h : to_floatParts ['0'] = some (false, ['0'], []) := by decide
  have h1 : digitsVal ['0'] = 0 := by decide
  have h2 : digitsVal ([] : List Char) = 0 := by decide
  simp [to_floatS, to_floatL, h, ratOfParts, h1, h2]

/- The row filter of resumo, as one predicate: the row is long enough for
   the month column and its trimmed month cell equals the filter. -/
def rowMatchesMes (idxMes : ℕ) (mes : String) (r : List String) : Bool :=
  decide (idxMes < r.length) && (pyStrip (r.getD idxMes "") == mes)

/- The row filter of meus_resumo: long enough for both filter columns,
   matching both the user id and the month. -/
def rowMatchesUidMes (idxUid idxMes : ℕ) (uid mes : String) (r : List String) : Bool :=
  decide (max idxUid idxMes < r.length) && (pyStrip (r.getD idxUid "") == uid) &&
    (pyStrip (r.getD idxMes "") == mes)

/- Value of one monetary column of a matching row: 0 when the column is
   absent from the header, else the normalized cell value. -/
def moneyVal (idx : Option ℕ) (r : List String) : ℚ :=
  match idx with
  | none => 0
  | some i => to_floatS (r.getD i "")

/- Every monetary column that exists in the header lies inside the row. -/
def moneyIdxOk (hG h5u h5b : Option ℕ) (r : List String) : Prop :=
  (∀ i, hG = some i → i < r.length) ∧ (∀ i, h5u = some i → i < r.length) ∧
    (∀ i, h5b = some i → i < r.length)

/- Common shape of the two aggregation loop bodies, guarded by one row
   predicate. -/
def aggStep (P : List String → Bool) (hG h5u h5b : Option ℕ)
    (st : Except AggErr (ℕ × ℚ × ℚ × ℚ)) (r : List String) :
    Except AggErr (ℕ × ℚ × ℚ × ℚ) :=
  match st with
  | Except.error e => Except.error e
  | Except.ok (c, g, u, b) =>
    if P r then
      match moneyCell hG r, moneyCell h5u r, moneyCell h5b r with
      | Except.ok vg, Except.ok vu, Except.ok vb =>
          Except.ok (c + 1, g + to_floatS vg, u + to_floatS vu, b + to_floatS vb)
      | Except.error e, _, _ => Except.error e
      | _, Except.error e, _ => Except.error e
      | _, _, Except.error e => Except.error e
    else Except.ok (c, g, u, b)

lemma resumoStep_eq (hG h5u h5b : Option ℕ) (idxMes : ℕ) (mes : String) :
    resumoStep hG h5u h5b idxMes mes = aggStep (rowMatchesMes idxMes mes) hG h5u h5b := by
  funext st r
  cases st with
  | error e => rfl
  | ok t =>
    obtain ⟨c, g, u, b⟩ := t
    by_cases h1 : r.length ≤ idxMes
    · have hd : decide (idxMes < r.length) = false := by simp; omega
      have hP : rowMatchesMes idxMes mes r = false := by
        unfold rowMatchesMes
        rw [hd, Bool.false_and]
      have hL : resumoStep hG h5u h5b idxMes mes (Except.ok (c, g, u, b)) r =
          Except.ok (c, g, u, b) := by
        simp only [resumoStep]
        rw [if_pos h1]
      have hR : aggStep (rowMatchesMes idxMes mes) hG h5u h5b
          (Except.ok (c, g, u, b)) r = Except.ok (c, g, u, b) := by
        simp only [aggStep]
        rw [if_neg (by simp [hP])]
      rw [hL, hR]
    · have hd : decide (idxMes < r.length) = true := by simp; omega
      by_cases h2 : pyStrip (r.getD idxMes "") = mes
      · have hP : rowMatchesMes idxMes mes r = true := by
          unfold rowMatchesMes
          rw [hd, beq_iff_eq.mpr h2, Bool.and_self]
        have hL : resumoStep hG h5u h5b idxMes mes (Except.ok (c, g, u, b)) r =
            match moneyCell hG r, moneyCell h5u r, moneyCell h5b r with
            | Except.ok vg, Except.ok vu, Except.ok vb =>
                Except.ok (c + 1, g + to_floatS vg, u + to_floatS vu, b + to_floatS vb)
            | Except.error e, _, _ => Except.error e
            | _, Except.error e, _ => Except.error e
            | _, _, Except.error e => Except.error e := by
          simp only [resumoStep]
          rw [if_neg h1, if_neg (fun hc => hc h2)]
        have hR : aggStep (rowMatchesMes idxMes mes) hG h5u h5b
            (Except.ok (c, g, u, b)) r =
            match moneyCell hG r, moneyCell h5u r, moneyCell h5b r with
            | Except.ok vg, Except.ok vu, Except.ok vb =>
                Except.ok (c + 1, g + to_floatS vg, u + to_floatS vu, b + to_floatS vb)
            | Except.error e, _, _ => Except.error e
            | _, Except.error e, _ => Except.error e
            | _, _, Except.error e => Except.error e := by
          simp only [aggStep]
          rw [if_pos hP]
        rw [hL, hR]
      · have hP : rowMatchesMes idxMes mes r = false := by
          unfold rowMatchesMes
          rw [beq_eq_false_iff_ne.mpr h2, Bool.and_false]
        have hL : resumoStep hG h5u h5b idxMes mes (Except.ok (c, g, u, b)) r =
            Except.ok (c, g, u, b) := by
          simp only [resumoStep]
          rw [if_neg h1, if_pos h2]
        have hR : aggStep (rowMatchesMes idxMes mes) hG h5u h5b
            (Except.ok (c, g, u, b)) r = Except.ok (c, g, u, b) := by
          simp only [aggStep]
          rw [if_neg (by simp [hP])]
        rw [hL, hR]

lemma meusResumoStep_eq (hG h5u h5b : Option ℕ) (idxUid idxMes : ℕ) (uid mes : String) :
    meusResumoStep hG h5u h5b idxUid idxMes uid mes =
      aggStep (rowMatchesUidMes idxUid idxMes uid mes) hG h5u h5b := by
  funext st r
  cases st with
  | error e => rfl
  | ok t =>
    obtain ⟨c, g, u, b⟩ := t
    by_cases h1 : r.length ≤ max idxUid idxMes
    · have hd : decide (max idxUid idxMes < r.length) = false := by simp; omega
      have hP : rowMatchesUidMes idxUid idxMes uid mes r = false := by
        unfold rowMatchesUidMes
        rw [hd, Bool.false_and, Bool.false_and]
      have hL : meusResumoStep hG h5u h5b idxUid idxMes uid mes
          (Except.ok (c, g, u, b)) r = Except.ok (c, g, u, b) := by
        simp only [meusResumoStep]
        rw [if_pos h1]
      have hR : aggStep (rowMatchesUidMes idxUid idxMes uid mes) hG h5u h5b
          (Except.ok (c, g, u, b)) r = Except.ok (c, g, u, b) := by
        simp only [aggStep]
        rw [if_neg (by simp [hP])]
      rw [hL, hR]
    · have hd : decide (max idxUid idxMes < r.length) = true := by simp; omega
      by_cases h2 : pyStrip (r.getD idxUid "") = uid
      · by_cases h3 : pyStrip (r.getD idxMes "") = mes
        · have hP : rowMatchesUidMes idxUid idxMes uid mes r = true := by
            unfold rowMatchesUidMes
            rw [hd, beq_iff_eq.mpr h2, beq_iff_eq.mpr h3, Bool.and_self, Bool.and_self]
          have hL : meusResumoStep hG h5u h5b idxUid idxMes uid mes
              (Except.ok (c, g, u, b)) r =
              match moneyCell hG r, moneyCell h5u r, moneyCell h5b r with
              | Except.ok vg, Except.ok vu, Except.ok vb =>
                  Except.ok (c + 1, g + to_floatS vg, u + to_floatS vu, b + to_floatS vb)
              | Except.error e, _, _ => Except.error e
              | _, Except.error e, _ => Except.error e
              | _, _, Except.error e => Except.error e := by
            simp only [meusResumoStep]
            rw [if_neg h1, if_neg (fun hc => hc h2), if_neg (fun hc => hc h3)]
          have hR : aggStep (rowMatchesUidMes idxUid idxMes uid mes) hG h5u h5b
              (Except.ok (c, g, u, b)) r =
              match moneyCell hG r, moneyCell h5u r, moneyCell h5b r with
              | Except.ok vg, Except.ok vu, Except.ok vb =>
                  Except.ok (c + 1, g + to_floatS vg, u + to_floatS vu, b + to_floatS vb)
              | Except.error e, _, _ => Except.error e
              | _, Except.error e, _ => Except.error e
              | _, _, Except.error e => Except.error e := by
            simp only [aggStep]
            rw [if_pos hP]
          rw [hL, hR]
        · have hP : rowMatchesUidMes idxUid idxMes uid mes r = false := by
            unfold rowMatchesUidMes
            rw [beq_eq_false_iff_ne.mpr h3, Bool.and_false]
          have hL : meusResumoStep hG h5u h5b idxUid idxMes uid mes
              (Except.ok (c, g, u, b)) r = Except.ok (c, g, u, b) := by
            simp only [meusResumoStep]
            rw [if_neg h1, if_neg (fun hc => hc h2), if_pos h3]
          have hR : aggStep (rowMatchesUidMes idxUid idxMes uid mes) hG h5u h5b
              (Except.ok (c, g, u, b)) r = Except.ok (c, g, u, b) := by
            simp only [aggStep]
            rw [if_neg (by simp [hP])]
          rw [hL, hR]
      · have hP : rowMatchesUidMes idxUid idxMes uid mes r = false := by
          unfold rowMatchesUidMes
          rw [beq_eq_false_iff_ne.mpr h2, Bool.and_false, Bool.false_and]
        have hL : meusResumoStep hG h5u h5b idxUid idxMes uid mes
            (Except.ok (c, g, u, b)) r = Except.ok (c, g, u, b) := by
          simp only [meusResumoStep]
          rw [if_neg h1, if_pos h2]
        have hR : aggStep (rowMatchesUidMes idxUid idxMes uid mes) hG h5u h5b
            (Except.ok (c, g, u, b)) r = Except.ok (c, g, u, b) := by
          simp only [aggStep]
          rw [if_neg (by simp [hP])]
        rw [hL, hR]

lemma moneyCell_ok {idx : Option ℕ} {r : List String}
    (h : ∀ i, idx = some i → i < r.length) :
    ∃ v, moneyCell idx r = Except.ok v ∧ to_floatS v = moneyVal idx r := by
  cases idx with
  | none => exact ⟨"0", rfl, to_floatS_zero⟩
  | some i =>
    have hi := h i rfl
    refine ⟨r.getD i "", ?_, rfl⟩
    have hg : r.get? i = some (r.getD i "") := by
      rw [List.get?_eq_getElem?, List.getElem?_eq_getElem hi, List.getD_eq_getElem r "" hi]
    simp only [moneyCell]
    rw [hg]

lemma aggFold_ok (P : List String → Bool) (hG h5u h5b : Option ℕ) :
    ∀ (rows : List (List String)) (c : ℕ) (g u b : ℚ),
      (∀ r ∈ rows, P r = true → moneyIdxOk hG h5u h5b r) →
      rows.foldl (aggStep P hG h5u h5b) (Except.ok (c, g, u, b)) =
        Except.ok (c + (rows.filter P).length,
          g + ((rows.filter P).map (moneyVal hG)).sum,
          u + ((rows.filter P).map (moneyVal h5u)).sum,
          b + ((rows.filter P).map (moneyVal h5b)).sum) := by
  intro rows
  induction rows with
  | nil =>
    intro c g u b _
    simp
  | cons r rest ih =>
    intro c g u b hok
    have hrest := fun x hx => hok x (List.mem_cons_of_mem _ hx)
    by_cases hP : P r = true
    · have hmi := hok r (List.mem_cons_self _ _) hP
      obtain ⟨vg, hvg, hvg2⟩ := moneyCell_ok hmi.1
      obtain ⟨vu, hvu, hvu2⟩ := moneyCell_ok hmi.2.1
      obtain ⟨vb, hvb, hvb2⟩ := moneyCell_ok hmi.2.2
      rw [List.foldl_cons]
      have hstep : aggStep P hG h5u h5b (Except.ok (c, g, u, b)) r =
          Except.ok (c + 1, g + to_floatS vg, u + to_floatS vu, b + to_floatS vb) := by
        simp [aggStep, hP, hvg, hvu, hvb]
      rw [hstep, ih (c + 1) _ _ _ hrest, List.filter_cons_of_pos hP]
      simp only [List.length_cons, List.map_cons, List.sum_cons]
      rw [hvg2, hvu2, hvb2]
      refine congrArg Except.ok ?_
      refine congrArg₂ Prod.mk (by omega) (congrArg₂ Prod.mk (by ring)
        (congrArg₂ Prod.mk (by ring) (by ring)))
    · rw [List.foldl_cons]
      have hstep : aggStep P hG h5u h5b (Except.ok (c, g, u, b)) r =
          Except.ok (c, g, u, b) := by
        simp [aggStep, hP]
      rw [hstep, ih c g u b hrest, List.filter_cons_of_neg (by simp [hP])]

lemma hmGet_eq_none_iff (header : List String) (name : String) :
    hmGet header name = none ↔ ∀ h ∈ header, pyStrip h ≠ name := by
  unfold hmGet
  rw [List.getLast?_eq_none_iff, List.filter_eq_nil_iff]
  constructor
  · intro hf h hh
    obtain ⟨i, hi, rfl⟩ := List.getElem_of_mem hh
    have := hf i (List.mem_range.mpr hi)
    rw [List.getD_eq_getElem header "" hi] at this
    intro he
    exact this (by simp [he])
  · intro hall i hi
    have hlen := List.mem_range.mp hi
    rw [List.getD_eq_getElem header "" hlen]
    have hne := hall (header[i]) (List.getElem_mem hlen)
    simp [hne]

/-- C8 (amended): the aggregators count exactly the rows whose trimmed
filter cells equal the filter values, skip rows shorter than the filter
columns, sum the three monetary columns (columns absent from the header
and malformed cells contribute via the 0.0-defaulting normalizer), and
distinguish zero matches (count 0, no error) from a missing filter column
(a schema error with no aggregation) — provided every matching row reaches
past the monetary columns present in the header; a matching row shorter
than such a column raises an index error instead of defaulting. -/
theorem C8_resumo_aggregation (header : List String) (rows : List (List String))
    (mes uid : String) :
    ((∀ h ∈ header, pyStrip h ≠ "Mês transação") →
      resumo_core header rows mes = Except.error AggErr.missingColumn) ∧
    (∀ idxMes, hmGet header "Mês transação" = some idxMes →
      (∀ r ∈ rows, rowMatchesMes idxMes mes r = true →
        moneyIdxOk (hmGet header "Ganhos período (USDT)")
          (hmGet header "Doação 5% (USDT)") (hmGet header "Doação 5% (BRL)") r) →
      resumo_core header rows mes =
        Except.ok ((rows.filter (rowMatchesMes idxMes mes)).length,
          ((rows.filter (rowMatchesMes idxMes mes)).map
            (moneyVal (hmGet header "Ganhos período (USDT)"))).sum,
          ((rows.filter (rowMatchesMes idxMes mes)).map
            (moneyVal (hmGet header "Doação 5% (USDT)"))).sum,
          ((rows.filter (rowMatchesMes idxMes mes)).map
            (moneyVal (hmGet header "Doação 5% (BRL)"))).sum)) ∧
    (∀ idxMes, hmGet header "Mês transação" = some idxMes →
      (∀ r ∈ rows, rowMatchesMes idxMes mes r = true →
        moneyIdxOk (hmGet header "Ganhos período (USDT)")
          (hmGet header "Doação 5% (USDT)") (hmGet header "Doação 5% (BRL)") r) →
      (rows.filter (rowMatchesMes idxMes mes)).length = 0 →
      resumo_core header rows mes = Except.ok (0, 0, 0, 0)) ∧
    ((∀ h ∈ header, pyStrip h ≠ "Telegram ID") →
      meus_resumo_core header rows uid mes = Except.error AggErr.missingColumn) ∧
    (∀ idxUid idxMes, hmGet header "Telegram ID" = some idxUid →
      hmGet header "Mês transação" = some idxMes →
      (∀ r ∈ rows, rowMatchesUidMes idxUid idxMes uid mes r = true →
        moneyIdxOk (hmGet header "Ganhos período (USDT)")
          (hmGet header "Doação 5% (USDT)") (hmGet header "Doação 5% (BRL)") r) →
      meus_resumo_core header rows uid mes =
        Except.ok ((rows.filter (rowMatchesUidMes idxUid idxMes uid mes)).length,
          ((rows.filter (rowMatchesUidMes idxUid idxMes uid mes)).map
            (moneyVal (hmGet header "Ganhos período (USDT)"))).sum,
          ((rows.filter (rowMatchesUidMes idxUid idxMes uid mes)).map
            (moneyVal (hmGet header "Doação 5% (USDT)"))).sum,
          ((rows.filter (rowMatchesUidMes idxUid idxMes uid mes)).map
            (moneyVal (hmGet header "Doação 5% (BRL)"))).sum)) := by
  have hmain : ∀ idxMes, hmGet header "Mês transação" = some idxMes →
      (∀ r ∈ rows, rowMatchesMes idxMes mes r = true →
        moneyIdxOk (hmGet header "Ganhos período (USDT)")
          (hmGet header "Doação 5% (USDT)") (hmGet header "Doação 5% (BRL)") r) →
      resumo_core header rows mes =
        Except.ok ((rows.filter (rowMatchesMes idxMes mes)).length,
          ((rows.filter (rowMatchesMes idxMes mes)).map
            (moneyVal (hmGet header "Ganhos período (USDT)"))).sum,
          ((rows.filter (rowMatchesMes idxMes mes)).map
            (moneyVal (hmGet header "Doação 5% (USDT)"))).sum,
          ((rows.filter (rowMatchesMes idxMes mes)).map
            (moneyVal (hmGet header "Doação 5% (BRL)"))).sum) := by
    intro idxMes hidx hok
    simp only [resumo_core, hidx]
    rw [resumoStep_eq, aggFold_ok _ _ _ _ rows 0 0 0 0 hok]
    simp
  refine ⟨?_, hmain, ?_, ?_, ?_⟩
  · intro hnone
    have h0 := (hmGet_eq_none_iff header "Mês transação").mpr hnone
    simp only [resumo_core, h0]
  · intro idxMes hidx hok hzero
    have hb := hmain idxMes hidx hok
    rw [List.length_eq_zero] at hzero
    rw [hb, hzero]
    simp
  · intro hnone
    have h0 := (hmGet_eq_none_iff header "Telegram ID").mpr hnone
    simp only [meus_resumo_core, h0]
  · intro idxUid idxMes hiu him hok
    simp only [meus_resumo_core, hiu, him]
    rw [meusResumoStep_eq, aggFold_ok _ _ _ _ rows 0 0 0 0 hok]
    simp

/-- C8 counterexample: all four columns are present in the header and the
single row matches the month filter but carries only the month cell; the
claim's reading would aggregate it with the missing monetary values as
0.0, yet resumo raises an index error and produces no aggregate. -/
theorem C8_resumo_counterexample :
    resumo_core ["Mês transação", "Ganhos período (USDT)", "Doação 5% (USDT)",
        "Doação 5% (BRL)"] [["02/2026"]] "02/2026" =
      Except.error AggErr.indexError ∧
    resumo_core ["Mês transação", "Ganhos período (USDT)", "Doação 5% (USDT)",
        "Doação 5% (BRL)"] [["02/2026"]] "02/2026" ≠
      Except.ok (1, 0, 0, 0) := by
  have h1 : resumo_core ["Mês transação", "Ganhos período (USDT)",
      "Doação 5% (USDT)", "Doação 5% (BRL)"] [["02/2026"]] "02/2026" =
      Except.error AggErr.indexError := by rfl
  refine ⟨h1, ?_⟩
  rw [h1]
  intro h
  exact Except.noConfusion h

/-- C8 witness: a complete matching row aggregates to count 1, and the
missing-column and zero-match outcomes are produced as stated. -/
theorem C8_resumo_aggregation_witness :
    resumo_core ["Mês transação", "Ganhos período (USDT)", "Doação 5% (USDT)",
        "Doação 5% (BRL)"] [["02/2026", "10", "0.5", "2.5"]] "02/2026" =
      Except.ok (([(["02/2026", "10", "0.5", "2.5"] : List String)].filter
          (rowMatchesMes 0 "02/2026")).length,
        (([(["02/2026", "10", "0.5", "2.5"] : List String)].filter
          (rowMatchesMes 0 "02/2026")).map (moneyVal (some 1))).sum,
        (([(["02/2026", "10", "0.5", "2.5"] : List String)].filter
          (rowMatchesMes 0 "02/2026")).map (moneyVal (some 2))).sum,
        (([(["02/2026", "10", "0.5", "2.5"] : List String)].filter
          (rowMatchesMes 0 "02/2026")).map (moneyVal (some 3))).sum) ∧
    resumo_core ["x"] [["02/2026"]] "02/2026" =
      Except.error AggErr.missingColumn ∧
    resumo_core ["Mês transação", "Ganhos período (USDT)", "Doação 5% (USDT)",
        "Doação 5% (BRL)"] [["01/2026", "10", "0.5", "2.5"]] "02/2026" =
      Except.ok (0, 0, 0, 0) := by
  have hdr : hmGet ["Mês transação", "Ganhos período (USDT)", "Doação 5% (USDT)",
      "Doação 5% (BRL)"] "Mês transação" = some 0 := by decide
  have hG : hmGet ["Mês transação", "Ganhos período (USDT)", "Doação 5% (USDT)",
      "Doação 5% (BRL)"] "Ganhos período (USDT)" = some 1 := by decide
  have h5u : hmGet ["Mês transação", "Ganhos período (USDT)", "Doação 5% (USDT)",
      "Doação 5% (BRL)"] "Doação 5% (USDT)" = some 2 := by decide
  have h5b : hmGet ["Mês transação", "Ganhos período (USDT)", "Doação 5% (USDT)",
      "Doação 5% (BRL)"] "Doação 5% (BRL)" = some 3 := by decide
  have hok : ∀ r ∈ [(["02/2026", "10", "0.5", "2.5"] : List String)],
      rowMatchesMes 0 "02/2026" r = true →
      moneyIdxOk (some 1) (some 2) (some 3) r := by
    intro r hr _
    rcases List.mem_singleton.mp hr with rfl
    refine ⟨?_, ?_, ?_⟩ <;> intro i hi <;> (injection hi with hi; subst hi; decide)
  have h := C8_resumo_aggregation ["Mês transação", "Ganhos período (USDT)",
    "Doação 5% (USDT)", "Doação 5% (BRL)"] [["02/2026", "10", "0.5", "2.5"]]
    "02/2026" "u"
  have hmiss := (C8_resumo_aggregation ["x"] [["02/2026"]] "02/2026" "u").1
    (by intro hh hmem; rcases List.mem_singleton.mp hmem with rfl; decide)
  have hok2 : ∀ r ∈ [(["01/2026", "10", "0.5", "2.5"] : List String)],
      rowMatchesMes 0 "02/2026" r = true →
      moneyIdxOk (some 1) (some 2) (some 3) r := by
    intro r hr _
    rcases List.mem_singleton.mp hr with rfl
    refine ⟨?_, ?_, ?_⟩ <;> intro i hi <;> (injection hi with hi; subst hi; decide)
  have hzero := (C8_resumo_aggregation ["Mês transação", "Ganhos período (USDT)",
    "Doação 5% (USDT)", "Doação 5% (BRL)"] [["01/2026", "10", "0.5", "2.5"]]
    "02/2026" "u").2.2.1 0 hdr (by rw [hG, h5u, h5b]; exact hok2) (by decide)
  refine ⟨?_, hmiss, hzero⟩
  have hb := h.2.1 0 hdr (by rw [hG, h5u, h5b]; exact hok)
  rw [hb, hG, h5u, h5b]

/- ------------------------------------------------------------------ -/
/- Inline and line syntax equivalence of parse_message (claim C7).     -/
/- ------------------------------------------------------------------ -/

lemma trimL_eq_rdropWhile (l : List Char) :
    trimL l = List.rdropWhile Char.isWhitespace (l.dropWhile Char.isWhitespace) := rfl

lemma dropWhile_fix_of_trim_fix {v : List Char} (hv : trimL v = v) :
    v.dropWhile Char.isWhitespace = v := by
  have hpre : v <+: v.dropWhile Char.isWhitespace := by
    conv_lhs => rw [← hv, trimL_eq_rdropWhile]
    exact List.rdropWhile_prefix _ _
  have hlen : (v.dropWhile Char.isWhitespace).length ≤ v.length :=
    (List.dropWhile_sublist _).length_le
  exact (hpre.eq_of_length (le_antisymm hpre.length_le hlen)).symm

lemma trim_fix_last {v : List Char} (hv : trimL v = v) :
    ∀ ch, v.getLast? = some ch → ch.isWhitespace = false := by
  intro ch hch
  have hne : v ≠ [] := by
    intro h
    subst h
    simp at hch
  have hrd : List.rdropWhile Char.isWhitespace v = v := by
    conv_lhs => rw [← dropWhile_fix_of_trim_fix hv]
    rw [← trimL_eq_rdropWhile, hv]
  have hlast := (List.rdropWhile_eq_self_iff.mp hrd) hne
  rw [List.getLast?_eq_getLast v hne] at hch
  injection hch with hch
  subst hch
  simpa using hlast

lemma trim_fix_head {v : List Char} (hv : trimL v = v) :
    ∀ ch, v.head? = some ch → ch.isWhitespace = false := by
  intro ch hch
  have hdw := dropWhile_fix_of_trim_fix hv
  cases v with
  | nil => simp at hch
  | cons a rest =>
    injection hch with hch
    by_cases hw : a.isWhitespace
    · exfalso
      rw [List.dropWhile_cons, if_pos hw] at hdw
      have := (List.dropWhile_sublist (l := rest) Char.isWhitespace).length_le
      rw [hdw] at this
      simp at this
    · rw [← hch]
      simpa using hw

lemma trimL_eq_self_of_ends {l : List Char}
    (hh : ∀ ch, l.head? = some ch → ch.isWhitespace = false)
    (hl : ∀ ch, l.getLast? = some ch → ch.isWhitespace = false) :
    trimL l = l := by
  have h1 : l.dropWhile Char.isWhitespace = l := by
    cases l with
    | nil => rfl
    | cons a rest =>
      rw [List.dropWhile_cons, hh a rfl]
      simp
  rw [trimL_eq_rdropWhile, h1]
  apply List.rdropWhile_eq_self_iff.mpr
  intro hne
  have := hl (l.getLast hne) (List.getLast?_eq_getLast l hne)
  simp [this]

lemma getLast?_append_pred {A B : List Char} {P : Char → Prop}
    (hB : ∀ ch, B.getLast? = some ch → P ch)
    (hA : ∀ ch, A.getLast? = some ch → P ch) :
    ∀ ch, (A ++ B).getLast? = some ch → P ch := by
  intro ch hch
  rw [List.getLast?_append] at hch
  cases hB2 : B.getLast? with
  | some x =>
    rw [hB2] at hch
    simp only [Option.or_some] at hch
    injection hch with hch
    subst hch
    exact hB x hB2
  | none =>
    rw [hB2] at hch
    simp only [Option.none_or] at hch
    exact hA ch hch

lemma splitOnChar_not_mem {sep : Char} {a : List Char} (h : sep ∉ a) :
    splitOnChar sep a = [a] := by
  induction a with
  | nil => rfl
  | cons c rest ih =>
    have hc : c ≠ sep := fun he => h (he ▸ List.mem_cons_self c rest)
    have ih2 := ih (fun hm => h (List.mem_cons_of_mem _ hm))
    simp only [splitOnChar, if_neg hc, ih2]

lemma splitOnChar_append {sep : Char} {a b : List Char} (h : sep ∉ a) :
    splitOnChar sep (a ++ sep :: b) = a :: splitOnChar sep b := by
  induction a with
  | nil =>
    simp [splitOnChar]
  | cons c rest ih =>
    have hc : c ≠ sep := fun he => h (he ▸ List.mem_cons_self c rest)
    have ih2 := ih (fun hm => h (List.mem_cons_of_mem _ hm))
    rw [List.cons_append]
    simp only [splitOnChar, if_neg hc, ih2]

lemma splitFirst_append {sep : Char} {a b : List Char} (h : sep ∉ a) :
    splitFirst sep (a ++ sep :: b) = (a, b) := by
  induction a with
  | nil => simp [splitFirst]
  | cons c rest ih =>
    have hc : c ≠ sep := fun he => h (he ▸ List.mem_cons_self c rest)
    have ih2 := ih (fun hm => h (List.mem_cons_of_mem _ hm))
    rw [List.cons_append]
    simp only [splitFirst, if_neg hc, ih2]

/- A field value acceptable in both syntaxes: no separator of either
   branch selector, and already stripped. -/
def GoodVal (v : List Char) : Prop :=
  ';' ∉ v ∧ '=' ∉ v ∧ '\n' ∉ v ∧ trimL v = v

/- One key=value segment of the inline syntax. -/
def inlinePart (key v : List Char) : List Char := key ++ '=' :: v

/- One key: value line of the line syntax. -/
def linePart (key v : List Char) : List Char := key ++ ':' :: v

/- A registration message in inline syntax, one key per field, using the
   aliases of the source. -/
def inlineText (c n i m ini dep saq fin o : List Char) : List Char :=
  inlinePart ("cidade".toList) c ++ ';' ::
    (inlinePart ("nome".toList) n ++ ';' ::
      (inlinePart ("id".toList) i ++ ';' ::
        (inlinePart ("mes".toList) m ++ ';' ::
          (inlinePart ("inicial".toList) ini ++ ';' ::
            (inlinePart ("deposito".toList) dep ++ ';' ::
              (inlinePart ("saque".toList) saq ++ ';' ::
                (inlinePart ("final".toList) fin ++ ';' ::
                  inlinePart ("obs".toList) o)))))))

/- The same message in line syntax with the same field values. -/
def linesText (c n i m ini dep saq fin o : List Char) : List Char :=
  linePart ("cidade".toList) c ++ '\n' ::
    (linePart ("nome".toList) n ++ '\n' ::
      (linePart ("id".toList) i ++ '\n' ::
        (linePart ("mes".toList) m ++ '\n' ::
          (linePart ("inicial".toList) ini ++ '\n' ::
            (linePart ("deposito".toList) dep ++ '\n' ::
              (linePart ("saque".toList) saq ++ '\n' ::
                (linePart ("final".toList) fin ++ '\n' ::
                  linePart ("obs".toList) o)))))))

/- The record both messages should parse to. -/
def expectedRegistro (c n i m ini dep saq fin o : List Char) : Registro :=
  { cidade := String.mk c, nome := String.mk n, id_conta := String.mk i,
    mes := String.mk m, inicial := to_floatL ini, deposito := to_floatL dep,
    saque := to_floatL saq, final := to_floatL fin, obs := String.mk o }

lemma not_mem_layer {x sep : Char} {part rest2 : List Char} (hp : x ∉ part)
    (hs : x ≠ sep) (hr : x ∉ rest2) : x ∉ part ++ sep :: rest2 := by
  intro h
  rcases List.mem_append.mp h with h | h
  · exact hp h
  · rcases List.mem_cons.mp h with h | h
    · exact hs h
    · exact hr h

lemma pred_of_concrete {x : Char} {l : List Char} (hx : l.getLast? = some x)
    (hw : x.isWhitespace = false) :
    ∀ ch, l.getLast? = some ch → ch.isWhitespace = false := by
  intro ch hch
  rw [hx] at hch
  injection hch with hh
  exact hh ▸ hw

lemma part_last (sep : Char) (hsep : sep.isWhitespace = false) (key v : List Char)
    (hv : trimL v = v)
    (hlastk : ∀ ch, key.getLast? = some ch → ch.isWhitespace = false) :
    ∀ ch, (key ++ sep :: v).getLast? = some ch → ch.isWhitespace = false := by
  apply getLast?_append_pred ?_ hlastk
  intro ch hch
  cases v with
  | nil =>
    have h0 : (([sep] : List Char).getLast?) = some sep := rfl
    rw [h0] at hch
    injection hch with hh
    exact hh ▸ hsep
  | cons a rest =>
    rw [List.getLast?_cons_cons] at hch
    exact trim_fix_last hv ch hch

lemma part_trim (sep : Char) (hsep : sep.isWhitespace = false) (k0 : Char)
    (hk0 : k0.isWhitespace = false) (ks v : List Char) (hv : trimL v = v)
    (hlastk : ∀ ch, (k0 :: ks).getLast? = some ch → ch.isWhitespace = false) :
    trimL ((k0 :: ks) ++ sep :: v) = (k0 :: ks) ++ sep :: v := by
  apply trimL_eq_self_of_ends
  · intro ch hch
    have h0 : (((k0 :: ks) ++ sep :: v).head?) = some k0 := rfl
    rw [h0] at hch
    injection hch with hh
    exact hh ▸ hk0
  · exact part_last sep hsep (k0 :: ks) v hv hlastk

lemma pred_cons_of_ne_nil {a : Char} {l : List Char} (hne : l ≠ [])
    (hl : ∀ ch, l.getLast? = some ch → ch.isWhitespace = false) :
    ∀ ch, (a :: l).getLast? = some ch → ch.isWhitespace = false := by
  intro ch hch
  cases l with
  | nil => exact absurd rfl hne
  | cons b bs =>
    rw [List.getLast?_cons_cons] at hch
    exact hl ch hch

lemma layer_last (sep2 : Char) {part rest2 : List Char} (hne : rest2 ≠ [])
    (hpart : ∀ ch, part.getLast? = some ch → ch.isWhitespace = false)
    (hrest : ∀ ch, rest2.getLast? = some ch → ch.isWhitespace = false) :
    ∀ ch, (part ++ sep2 :: rest2).getLast? = some ch → ch.isWhitespace = false :=
  getLast?_append_pred (pred_cons_of_ne_nil hne hrest) hpart

lemma inlineStep_eq (d : List (List Char × List Char)) (key v : List Char)
    (hk : '=' ∉ key) :
    inlineStep d (key ++ '=' :: v) = (lowerL (trimL key), trimL v) :: d := by
  have hmem : '=' ∈ key ++ '=' :: v :=
    List.mem_append.mpr (Or.inr (List.mem_cons_self _ _))
  simp only [inlineStep, if_pos hmem, splitFirst_append hk, dput]

lemma lineStep_eq (d : List (List Char × List Char)) (key v : List Char)
    (hk : ':' ∉ key) :
    lineStep d (key ++ ':' :: v) = (lowerL (trimL key), trimL v) :: d := by
  have hmem : ':' ∈ key ++ ':' :: v :=
    List.mem_append.mpr (Or.inr (List.mem_cons_self _ _))
  simp only [lineStep, if_pos hmem, splitFirst_append hk, dput]

lemma parse_message_eq (text : String) :
    parse_message text =
      if '=' ∈ trimL text.toList ∧ (';' ∈ trimL text.toList ∨ '\n' ∉ trimL text.toList)
      then parseInline (trimL text.toList) else parseLines (trimL text.toList) := rfl

lemma parse_inlineText (c n i m ini dep saq fin o : List Char)
    (hc : GoodVal c) (hn : GoodVal n) (hi : GoodVal i) (hm : GoodVal m)
    (hini : GoodVal ini) (hdep : GoodVal dep) (hsaq : GoodVal saq)
    (hfin : GoodVal fin) (ho : GoodVal o) :
    parse_message (String.mk (inlineText c n i m ini dep saq fin o)) =
      expectedRegistro c n i m ini dep saq fin o := by
  have hs1 : ';' ∉ inlinePart ("cidade".toList) c := not_mem_layer (by decide) (by decide) hc.1
  have hs2 : ';' ∉ inlinePart ("nome".toList) n := not_mem_layer (by decide) (by decide) hn.1
  have hs3 : ';' ∉ inlinePart ("id".toList) i := not_mem_layer (by decide) (by decide) hi.1
  have hs4 : ';' ∉ inlinePart ("mes".toList) m := not_mem_layer (by decide) (by decide) hm.1
  have hs5 : ';' ∉ inlinePart ("inicial".toList) ini :=
    not_mem_layer (by decide) (by decide) hini.1
  have hs6 : ';' ∉ inlinePart ("deposito".toList) dep :=
    not_mem_layer (by decide) (by decide) hdep.1
  have hs7 : ';' ∉ inlinePart ("saque".toList) saq :=
    not_mem_layer (by decide) (by decide) hsaq.1
  have hs8 : ';' ∉ inlinePart ("final".toList) fin :=
    not_mem_layer (by decide) (by decide) hfin.1
  have hs9 : ';' ∉ inlinePart ("obs".toList) o := not_mem_layer (by decide) (by decide) ho.1
  have hsplit : splitOnChar ';' (inlineText c n i m ini dep saq fin o) =
      [inlinePart ("cidade".toList) c, inlinePart ("nome".toList) n,
        inlinePart ("id".toList) i, inlinePart ("mes".toList) m,
        inlinePart ("inicial".toList) ini, inlinePart ("deposito".toList) dep,
        inlinePart ("saque".toList) saq, inlinePart ("final".toList) fin,
        inlinePart ("obs".toList) o] := by
    unfold inlineText
    rw [splitOnChar_append hs1, splitOnChar_append hs2, splitOnChar_append hs3,
      splitOnChar_append hs4, splitOnChar_append hs5, splitOnChar_append hs6,
      splitOnChar_append hs7, splitOnChar_append hs8, splitOnChar_not_mem hs9]
  have ht1 : trimL (inlinePart ("cidade".toList) c) = inlinePart ("cidade".toList) c :=
    part_trim '=' (by decide) 'c' (by decide) ("idade".toList) c hc.2.2.2
      (pred_of_concrete rfl (by decide))
  have ht2 : trimL (inlinePart ("nome".toList) n) = inlinePart ("nome".toList) n :=
    part_trim '=' (by decide) 'n' (by decide) ("ome".toList) n hn.2.2.2
      (pred_of_concrete rfl (by decide))
  have ht3 : trimL (inlinePart ("id".toList) i) = inlinePart ("id".toList) i :=
    part_trim '=' (by decide) 'i' (by decide) ("d".toList) i hi.2.2.2
      (pred_of_concrete rfl (by decide))
  have ht4 : trimL (inlinePart ("mes".toList) m) = inlinePart ("mes".toList) m :=
    part_trim '=' (by decide) 'm' (by decide) ("es".toList) m hm.2.2.2
      (pred_of_concrete rfl (by decide))
  have ht5 : trimL (inlinePart ("inicial".toList) ini) =
      inlinePart ("inicial".toList) ini :=
    part_trim '=' (by decide) 'i' (by decide) ("nicial".toList) ini hini.2.2.2
      (pred_of_concrete rfl (by decide))
  have ht6 : trimL (inlinePart ("deposito".toList) dep) =
      inlinePart ("deposito".toList) dep :=
    part_trim '=' (by decide) 'd' (by decide) ("eposito".toList) dep hdep.2.2.2
      (pred_of_concrete rfl (by decide))
  have ht7 : trimL (inlinePart ("saque".toList) saq) = inlinePart ("saque".toList) saq :=
    part_trim '=' (by decide) 's' (by decide) ("aque".toList) saq hsaq.2.2.2
      (pred_of_concrete rfl (by decide))
  have ht8 : trimL (inlinePart ("final".toList) fin) = inlinePart ("final".toList) fin :=
    part_trim '=' (by decide) 'f' (by decide) ("inal".toList) fin hfin.2.2.2
      (pred_of_concrete rfl (by decide))
  have ht9 : trimL (inlinePart ("obs".toList) o) = inlinePart ("obs".toList) o :=
    part_trim '=' (by decide) 'o' (by decide) ("bs".toList) o ho.2.2.2
      (pred_of_concrete rfl (by decide))
  have hl9 : ∀ ch, (inlinePart ("obs".toList) o).getLast? = some ch →
      ch.isWhitespace = false :=
    part_last '=' (by decide) ("obs".toList) o ho.2.2.2 (pred_of_concrete rfl (by decide))
  have hl8 := layer_last ';' (by simp [inlinePart])
    (part_last '=' (by decide) ("final".toList) fin hfin.2.2.2
      (pred_of_concrete rfl (by decide))) hl9
  have hl7 := layer_last ';' (by simp [inlinePart])
    (part_last '=' (by decide) ("saque".toList) saq hsaq.2.2.2
      (pred_of_concrete rfl (by decide))) hl8
  have hl6 := layer_last ';' (by simp [inlinePart])
    (part_last '=' (by decide) ("deposito".toList) dep hdep.2.2.2
      (pred_of_concrete rfl (by decide))) hl7
  have hl5 := layer_last ';' (by simp [inlinePart])
    (part_last '=' (by decide) ("inicial".toList) ini hini.2.2.2
      (pred_of_concrete rfl (by decide))) hl6
  have hl4 := layer_last ';' (by simp [inlinePart])
    (part_last '=' (by decide) ("mes".toList) m hm.2.2.2
      (pred_of_concrete rfl (by decide))) hl5
  have hl3 := layer_last ';' (by simp [inlinePart])
    (part_last '=' (by decide) ("id".toList) i hi.2.2.2
      (pred_of_concrete rfl (by decide))) hl4
  have hl2 := layer_last ';' (by simp [inlinePart])
    (part_last '=' (by decide) ("nome".toList) n hn.2.2.2
      (pred_of_concrete rfl (by decide))) hl3
  have htrim : trimL (inlineText c n i m ini dep saq fin o) =
      inlineText c n i m ini dep saq fin o := by
    apply trimL_eq_self_of_ends
    · intro ch hch
      have h0 : (inlineText c n i m ini dep saq fin o).head? = some 'c' := rfl
      rw [h0] at hch
      injection hch with hh
      exact hh ▸ (by decide)
    · unfold inlineText
      exact layer_last ';' (by simp [inlinePart])
        (part_last '=' (by decide) ("cidade".toList) c hc.2.2.2
          (pred_of_concrete rfl (by decide))) hl2
  have hEq : '=' ∈ inlineText c n i m ini dep saq fin o := by
    unfold inlineText
    exact List.mem_append.mpr (Or.inl
      (List.mem_append.mpr (Or.inr (List.mem_cons_self _ _))))
  have hSemi : ';' ∈ inlineText c n i m ini dep saq fin o := by
    unfold inlineText
    exact List.mem_append.mpr (Or.inr (List.mem_cons_self _ _))
  have e1 : ∀ d, inlineStep d ("cidade".toList ++ '=' :: c) =
      (lowerL (trimL ("cidade".toList)), trimL c) :: d :=
    fun d => inlineStep_eq d _ _ (by decide)
  have e2 : ∀ d, inlineStep d ("nome".toList ++ '=' :: n) =
      (lowerL (trimL ("nome".toList)), trimL n) :: d :=
    fun d => inlineStep_eq d _ _ (by decide)
  have e3 : ∀ d, inlineStep d ("id".toList ++ '=' :: i) =
      (lowerL (trimL ("id".toList)), trimL i) :: d :=
    fun d => inlineStep_eq d _ _ (by decide)
  have e4 : ∀ d, inlineStep d ("mes".toList ++ '=' :: m) =
      (lowerL (trimL ("mes".toList)), trimL m) :: d :=
    fun d => inlineStep_eq d _ _ (by decide)
  have e5 : ∀ d, inlineStep d ("inicial".toList ++ '=' :: ini) =
      (lowerL (trimL ("inicial".toList)), trimL ini) :: d :=
    fun d => inlineStep_eq d _ _ (by decide)
  have e6 : ∀ d, inlineStep d ("deposito".toList ++ '=' :: dep) =
      (lowerL (trimL ("deposito".toList)), trimL dep) :: d :=
    fun d => inlineStep_eq d _ _ (by decide)
  have e7 : ∀ d, inlineStep d ("saque".toList ++ '=' :: saq) =
      (lowerL (trimL ("saque".toList)), trimL saq) :: d :=
    fun d => inlineStep_eq d _ _ (by decide)
  have e8 : ∀ d, inlineStep d ("final".toList ++ '=' :: fin) =
      (lowerL (trimL ("final".toList)), trimL fin) :: d :=
    fun d => inlineStep_eq d _ _ (by decide)
  have e9 : ∀ d, inlineStep d ("obs".toList ++ '=' :: o) =
      (lowerL (trimL ("obs".toList)), trimL o) :: d :=
    fun d => inlineStep_eq d _ _ (by decide)
  rw [parse_message_eq]
  have hTL : (String.mk (inlineText c n i m ini dep saq fin o)).toList =
      inlineText c n i m ini dep saq fin o := rfl
  rw [hTL, htrim, if_pos ⟨hEq, Or.inl hSemi⟩]
  simp only [parseInline]
  rw [hsplit]
  simp only [List.map_cons, List.map_nil, ht1, ht2, ht3, ht4, ht5, ht6, ht7, ht8, ht9]
  simp only [inlinePart]
  rw [show List.filter (fun p => p != [])
      ["cidade".toList ++ '=' :: c, "nome".toList ++ '=' :: n, "id".toList ++ '=' :: i,
        "mes".toList ++ '=' :: m, "inicial".toList ++ '=' :: ini,
        "deposito".toList ++ '=' :: dep, "saque".toList ++ '=' :: saq,
        "final".toList ++ '=' :: fin, "obs".toList ++ '=' :: o] =
      ["cidade".toList ++ '=' :: c, "nome".toList ++ '=' :: n, "id".toList ++ '=' :: i,
        "mes".toList ++ '=' :: m, "inicial".toList ++ '=' :: ini,
        "deposito".toList ++ '=' :: dep, "saque".toList ++ '=' :: saq,
        "final".toList ++ '=' :: fin, "obs".toList ++ '=' :: o] from rfl]
  simp only [List.foldl_cons, List.foldl_nil, e1, e2, e3, e4, e5, e6, e7,
    e8, e9, hc.2.2.2, hn.2.2.2, hi.2.2.2, hm.2.2.2, hini.2.2.2, hdep.2.2.2,
    hsaq.2.2.2, hfin.2.2.2, ho.2.2.2]
  rfl

lemma parse_linesText (c n i m ini dep saq fin o : List Char)
    (hc : GoodVal c) (hn : GoodVal n) (hi : GoodVal i) (hm : GoodVal m)
    (hini : GoodVal ini) (hdep : GoodVal dep) (hsaq : GoodVal saq)
    (hfin : GoodVal fin) (ho : GoodVal o) :
    parse_message (String.mk (linesText c n i m ini dep saq fin o)) =
      expectedRegistro c n i m ini dep saq fin o := by
  have hn1 : '\n' ∉ linePart ("cidade".toList) c :=
    not_mem_layer (by decide) (by decide) hc.2.2.1
  have hn2 : '\n' ∉ linePart ("nome".toList) n :=
    not_mem_layer (by decide) (by decide) hn.2.2.1
  have hn3 : '\n' ∉ linePart ("id".toList) i :=
    not_mem_layer (by decide) (by decide) hi.2.2.1
  have hn4 : '\n' ∉ linePart ("mes".toList) m :=
    not_mem_layer (by decide) (by decide) hm.2.2.1
  have hn5 : '\n' ∉ linePart ("inicial".toList) ini :=
    not_mem_layer (by decide) (by decide) hini.2.2.1
  have hn6 : '\n' ∉ linePart ("deposito".toList) dep :=
    not_mem_layer (by decide) (by decide) hdep.2.2.1
  have hn7 : '\n' ∉ linePart ("saque".toList) saq :=
    not_mem_layer (by decide) (by decide) hsaq.2.2.1
  have hn8 : '\n' ∉ linePart ("final".toList) fin :=
    not_mem_layer (by decide) (by decide) hfin.2.2.1
  have hn9 : '\n' ∉ linePart ("obs".toList) o :=
    not_mem_layer (by decide) (by decide) ho.2.2.1
  have hsplit : splitOnChar '\n' (linesText c n i m ini dep saq fin o) =
      [linePart ("cidade".toList) c, linePart ("nome".toList) n,
        linePart ("id".toList) i, linePart ("mes".toList) m,
        linePart ("inicial".toList) ini, linePart ("deposito".toList) dep,
        linePart ("saque".toList) saq, linePart ("final".toList) fin,
        linePart ("obs".toList) o] := by
    unfold linesText
    rw [splitOnChar_append hn1, splitOnChar_append hn2, splitOnChar_append hn3,
      splitOnChar_append hn4, splitOnChar_append hn5, splitOnChar_append hn6,
      splitOnChar_append hn7, splitOnChar_append hn8, splitOnChar_not_mem hn9]
  have hl9 : ∀ ch, (linePart ("obs".toList) o).getLast? = some ch →
      ch.isWhitespace = false :=
    part_last ':' (by decide) ("obs".toList) o ho.2.2.2 (pred_of_concrete rfl (by decide))
  have hl8 := layer_last '\n' (by simp [linePart])
    (part_last ':' (by decide) ("final".toList) fin hfin.2.2.2
      (pred_of_concrete rfl (by decide))) hl9
  have hl7 := layer_last '\n' (by simp [linePart])
    (part_last ':' (by decide) ("saque".toList) saq hsaq.2.2.2
      (pred_of_concrete rfl (by decide))) hl8
  have hl6 := layer_last '\n' (by simp [linePart])
    (part_last ':' (by decide) ("deposito".toList) dep hdep.2.2.2
      (pred_of_concrete rfl (by decide))) hl7
  have hl5 := layer_last '\n' (by simp [linePart])
    (part_last ':' (by decide) ("inicial".toList) ini hini.2.2.2
      (pred_of_concrete rfl (by decide))) hl6
  have hl4 := layer_last '\n' (by simp [linePart])
    (part_last ':' (by decide) ("mes".toList) m hm.2.2.2
      (pred_of_concrete rfl (by decide))) hl5
  have hl3 := layer_last '\n' (by simp [linePart])
    (part_last ':' (by decide) ("id".toList) i hi.2.2.2
      (pred_of_concrete rfl (by decide))) hl4
  have hl2 := layer_last '\n' (by simp [linePart])
    (part_last ':' (by decide) ("nome".toList) n hn.2.2.2
      (pred_of_concrete rfl (by decide))) hl3
  have htrim : trimL (linesText c n i m ini dep saq fin o) =
      linesText c n i m ini dep saq fin o := by
    apply trimL_eq_self_of_ends
    · intro ch hch
      have h0 : (linesText c n i m ini dep saq fin o).head? = some 'c' := rfl
      rw [h0] at hch
      injection hch with hh
      exact hh ▸ (by decide)
    · unfold linesText
      exact layer_last '\n' (by simp [linePart])
        (part_last ':' (by decide) ("cidade".toList) c hc.2.2.2
          (pred_of_concrete rfl (by decide))) hl2
  have hEqNot : '=' ∉ linesText c n i m ini dep saq fin o := by
    unfold linesText
    exact not_mem_layer (not_mem_layer (by decide) (by decide) hc.2.1) (by decide)
      (not_mem_layer (not_mem_layer (by decide) (by decide) hn.2.1) (by decide)
        (not_mem_layer (not_mem_layer (by decide) (by decide) hi.2.1) (by decide)
          (not_mem_layer (not_mem_layer (by decide) (by decide) hm.2.1) (by decide)
            (not_mem_layer (not_mem_layer (by decide) (by decide) hini.2.1) (by decide)
              (not_mem_layer (not_mem_layer (by decide) (by decide) hdep.2.1) (by decide)
                (not_mem_layer (not_mem_layer (by decide) (by decide) hsaq.2.1) (by decide)
                  (not_mem_layer (not_mem_layer (by decide) (by decide) hfin.2.1)
                    (by decide)
                    (not_mem_layer (by decide) (by decide) ho.2.1))))))))
  have hpys : pySplitlines (linesText c n i m ini dep saq fin o) =
      [linePart ("cidade".toList) c, linePart ("nome".toList) n,
        linePart ("id".toList) i, linePart ("mes".toList) m,
        linePart ("inicial".toList) ini, linePart ("deposito".toList) dep,
        linePart ("saque".toList) saq, linePart ("final".toList) fin,
        linePart ("obs".toList) o] := by
    unfold pySplitlines
    rw [hsplit]
    rw [if_neg ?_]
    intro hcontra
    rw [show ([linePart ("cidade".toList) c, linePart ("nome".toList) n,
      linePart ("id".toList) i, linePart ("mes".toList) m,
      linePart ("inicial".toList) ini, linePart ("deposito".toList) dep,
      linePart ("saque".toList) saq, linePart ("final".toList) fin,
      linePart ("obs".toList) o].getLast?) = some (linePart ("obs".toList) o)
      from rfl] at hcontra
    injection hcontra with hcc
    simp [linePart] at hcc
  have e1 : ∀ d, lineStep d ("cidade".toList ++ ':' :: c) =
      (lowerL (trimL ("cidade".toList)), trimL c) :: d :=
    fun d => lineStep_eq d _ _ (by decide)
  have e2 : ∀ d, lineStep d ("nome".toList ++ ':' :: n) =
      (lowerL (trimL ("nome".toList)), trimL n) :: d :=
    fun d => lineStep_eq d _ _ (by decide)
  have e3 : ∀ d, lineStep d ("id".toList ++ ':' :: i) =
      (lowerL (trimL ("id".toList)), trimL i) :: d :=
    fun d => lineStep_eq d _ _ (by decide)
  have e4 : ∀ d, lineStep d ("mes".toList ++ ':' :: m) =
      (lowerL (trimL ("mes".toList)), trimL m) :: d :=
    fun d => lineStep_eq d _ _ (by decide)
  have e5 : ∀ d, lineStep d ("inicial".toList ++ ':' :: ini) =
      (lowerL (trimL ("inicial".toList)), trimL ini) :: d :=
    fun d => lineStep_eq d _ _ (by decide)
  have e6 : ∀ d, lineStep d ("deposito".toList ++ ':' :: dep) =
      (lowerL (trimL ("deposito".toList)), trimL dep) :: d :=
    fun d => lineStep_eq d _ _ (by decide)
  have e7 : ∀ d, lineStep d ("saque".toList ++ ':' :: saq) =
      (lowerL (trimL ("saque".toList)), trimL saq) :: d :=
    fun d => lineStep_eq d _ _ (by decide)
  have e8 : ∀ d, lineStep d ("final".toList ++ ':' :: fin) =
      (lowerL (trimL ("final".toList)), trimL fin) :: d :=
    fun d => lineStep_eq d _ _ (by decide)
  have e9 : ∀ d, lineStep d ("obs".toList ++ ':' :: o) =
      (lowerL (trimL ("obs".toList)), trimL o) :: d :=
    fun d => lineStep_eq d _ _ (by decide)
  rw [parse_message_eq]
  have hTL : (String.mk (linesText c n i m ini dep saq fin o)).toList =
      linesText c n i m ini dep saq fin o := rfl
  rw [hTL, htrim, if_neg (fun hand => hEqNot hand.1)]
  simp only [parseLines]
  rw [hpys]
  simp only [linePart, List.foldl_cons, List.foldl_nil, e1, e2, e3, e4, e5, e6, e7,
    e8, e9, hc.2.2.2, hn.2.2.2, hi.2.2.2, hm.2.2.2, hini.2.2.2, hdep.2.2.2,
    hsaq.2.2.2, hfin.2.2.2, ho.2.2.2]
  rfl

/-- C7: parse_message selects the inline branch exactly when the stripped
text contains an equals sign and either a semicolon or no line break; and
two messages supplying the same field values under the documented aliases,
one in inline syntax and one in line syntax, parse to identical records. -/
theorem C7_parse_message_equiv (c n i m ini dep saq fin o : List Char)
    (hc : GoodVal c) (hn : GoodVal n) (hi : GoodVal i) (hm : GoodVal m)
    (hini : GoodVal ini) (hdep : GoodVal dep) (hsaq : GoodVal saq)
    (hfin : GoodVal fin) (ho : GoodVal o) :
    (∀ text : String, parse_message text =
      if '=' ∈ trimL text.toList ∧
          (';' ∈ trimL text.toList ∨ '\n' ∉ trimL text.toList)
      then parseInline (trimL text.toList) else parseLines (trimL text.toList)) ∧
    parse_message (String.mk (inlineText c n i m ini dep saq fin o)) =
      expectedRegistro c n i m ini dep saq fin o ∧
    parse_message (String.mk (linesText c n i m ini dep saq fin o)) =
      expectedRegistro c n i m ini dep saq fin o ∧
    parse_message (String.mk (inlineText c n i m ini dep saq fin o)) =
      parse_message (String.mk (linesText c n i m ini dep saq fin o)) := by
  have h1 := parse_inlineText c n i m ini dep saq fin o hc hn hi hm hini hdep hsaq hfin ho
  have h2 := parse_linesText c n i m ini dep saq fin o hc hn hi hm hini hdep hsaq hfin ho
  exact ⟨fun text => parse_message_eq text, h1, h2, by rw [h1, h2]⟩

/-- C7 witness: the registration example of the source, rendered in both
syntaxes with the same values, parses to the same record. -/
theorem C7_parse_message_equiv_witness :
    parse_message (String.mk (inlineText ("Uberaba".toList) ("Joao".toList)
      ("445".toList) ("02/2026".toList) ("500".toList) ("60.35".toList)
      ("24".toList) ("522.65".toList) ("teste".toList))) =
      parse_message (String.mk (linesText ("Uberaba".toList) ("Joao".toList)
        ("445".toList) ("02/2026".toList) ("500".toList) ("60.35".toList)
        ("24".toList) ("522.65".toList) ("teste".toList))) ∧
    parse_message (String.mk (inlineText ("Uberaba".toList) ("Joao".toList)
      ("445".toList) ("02/2026".toList) ("500".toList) ("60.35".toList)
      ("24".toList) ("522.65".toList) ("teste".toList))) =
      expectedRegistro ("Uberaba".toList) ("Joao".toList) ("445".toList)
        ("02/2026".toList) ("500".toList) ("60.35".toList) ("24".toList)
        ("522.65".toList) ("teste".toList) := by
  have h := C7_parse_message_equiv ("Uberaba".toList) ("Joao".toList) ("445".toList)
    ("02/2026".toList) ("500".toList) ("60.35".toList) ("24".toList)
    ("522.65".toList) ("teste".toList) ⟨by decide, by decide, by decide, by decide⟩ ⟨by decide, by decide, by decide, by decide⟩ ⟨by decide, by decide, by decide, by decide⟩
    ⟨by decide, by decide, by decide, by decide⟩ ⟨by decide, by decide, by decide, by decide⟩ ⟨by decide, by decide, by decide, by decide⟩ ⟨by decide, by decide, by decide, by decide⟩ ⟨by decide, by decide, by decide, by decide⟩ ⟨by decide, by decide, by decide, by decide⟩
  exact ⟨h.2.2.2, h.2.1⟩
